import Mathlib

/-!
# Bootstrap reconciliation of the maestro service

A shallow embedding of `maestro/service.go` (`maestroService.Start` and
`maestroService.updateSinkCache`).

Go strings are Lean strings, `[]byte` values are strings too, a Go `error`
is `Option Error` (`none` is `nil`).  The collaborators of the service (the
sinks gRPC client, the monitor, the event store holding the deployment
ledger, the sinker redis client, kubecontrol) are interfaces whose code the
service does not own: they are the fields of `Env`, functions over an
arbitrary world state `W`, so every theorem holds for every behaviour of
theirs, stateful or not.  Every call the service makes is recorded, with what
it returned, in a trace of `Event`s.  Contexts are not modelled.
-/

namespace Maestro

/-- A Go error value, identified by its message. -/
abbrev Error := String

/-- The fields of `sinkspb.SinkRes` that `Start` reads. -/
structure SinkRes where
  Id : String
  OwnerID : String
  State : String
  Config : String
  deriving DecidableEq, Repr

/-- Modelled from the spec: the type `maestroconfig.SinkData` is declared
outside the given sources; it carries the fields that `Start` and
`updateSinkCache` read or write (`Url`, `User`, `Password`, `OwnerID`,
`SinkID`, `State`). -/
structure SinkData where
  SinkID : String
  OwnerID : String
  Url : String
  User : String
  Password : String
  State : String
  deriving DecidableEq, Repr

/-- Modelled from the spec: the constant `maestroconfig.Unknown` is declared
outside the given sources; the spec names the state it stands for "unknown". -/
def Unknown : String := "unknown"

/-- The calls `Start` makes, in the order it makes them, with their outcome. -/
inductive Event where
  | retrieveSinks (err : Option Error)
  | getRunningPods (err : Option Error)
  | getDeploymentEntry (sinkId : String) (val : String) (err : Option Error)
  | createDeploymentEntry (sinkId url user password : String) (err : Option Error)
  | cacheSet (key value : String) (err : Option Error)
  | createOtelCollector (ownerID sinkId deploymentEntry : String) (err : Option Error)
  | goSubscribeSinks
  | goSubscribeSinker
  | monitorStart (err : Option Error)
  | cancel
  | loadCancel
  | log (level msg : String)
  deriving DecidableEq, Repr

/-- The collaborators of `maestroService`, over a world state `W`.
`Unmarshal` is `json.Unmarshal` into a `SinkData`, `Marshal` is `json.Marshal`
of one; `Set` is `sinkerRedisClient.Set(ctx, key, bytes, 0)`. -/
structure Env (W : Type) where
  RetrieveSinks : W → Except Error (List SinkRes) × W
  GetRunningPods : W → Except Error (List String) × W
  Unmarshal : String → Except Error SinkData
  Marshal : SinkData → Except Error String
  GetDeploymentEntryFromSinkId : String → W → (String × Option Error) × W
  CreateDeploymentEntry : String → String → String → String → W → Option Error × W
  Set : String → String → W → Option Error × W
  CreateOtelCollector : String → String → String → W → Option Error × W
  MonitorStart : W → Option Error × W

/-- Whether `sub` starts the character list `s`. -/
def startsWith : List Char → List Char → Bool
  | _, [] => true
  | [], _ :: _ => false
  | c :: s, d :: sub => c == d && startsWith s sub

/-- Whether `sub` occurs in `s` at some index (Go `strings.Index(s, sub) >= 0`). -/
def indexExists : List Char → List Char → Bool
  | [], sub => startsWith [] sub
  | c :: s, sub => startsWith (c :: s) sub || indexExists s sub

/-- Go `strings.Contains(s, substr)`.  Go compares bytes; the identifiers
compared here are protobuf and Kubernetes strings, valid UTF-8, on which an
occurrence of the bytes of `substr` is an occurrence of its characters. -/
def Contains (s substr : String) : Bool := indexExists s.data substr.data

/-- The `for _, pod := range pods` loop of lines 107-112, with its `break`. -/
def podsLoop (id : String) : List String → Bool
  | [] => false
  | pod :: rest => if Contains pod id then true else podsLoop id rest

/-- Lines 105-113 of `Start`: the value of `isDeployed` after the loop. -/
def isDeployed (pods : List String) (id : String) : Bool :=
  if pods.length > 0 then podsLoop id pods else false

/-- The function `maestroService.updateSinkCache`. -/
def updateSinkCache {W : Type} (env : Env W) (data : SinkData) (w : W) :
    Option Error × List Event × W :=
  let data := { data with State := Unknown }
  let keyPrefix := "sinker_key"
  let skey := keyPrefix ++ "-" ++ data.OwnerID ++ ":" ++ data.SinkID
  match env.Marshal data with
  | .error e => (some e, [], w)
  | .ok bytes =>
    match env.Set skey bytes w with
    | (some e, w1) => (some e, [Event.cacheSet skey bytes (some e)], w1)
    | (none, w1) => (none, [Event.cacheSet skey bytes none], w1)

/-- Lines 83-103 of `Start`: decoding of the configuration and the ledger
step.  The boolean is `false` when the iteration ends in a `continue`. -/
def ledgerStep {W : Type} (env : Env W) (sinkRes : SinkRes) (w : W) :
    Bool × List Event × W :=
  match env.Unmarshal sinkRes.Config with
  | .error _ => (false, [Event.log "warn" "failed to unmarshal sink, skipping"], w)
  | .ok data =>
    match env.GetDeploymentEntryFromSinkId sinkRes.Id w with
    | ((val, verr), w1) =>
      if val ≠ "" then
        (true, [Event.getDeploymentEntry sinkRes.Id val verr,
                Event.log "info" "Skipping deploymentEntry because it is already created"], w1)
      else
        match env.CreateDeploymentEntry sinkRes.Id data.Url data.User data.Password w1 with
        | (some e, w2) =>
          (false, [Event.getDeploymentEntry sinkRes.Id val verr,
                   Event.createDeploymentEntry sinkRes.Id data.Url data.User data.Password (some e),
                   Event.log "warn" "failed to create deploymentEntry for sink, skipping"], w2)
        | (none, w2) =>
          match updateSinkCache env data w2 with
          | (some _, t, w3) =>
            (false, [Event.getDeploymentEntry sinkRes.Id val verr,
                     Event.createDeploymentEntry sinkRes.Id data.Url data.User data.Password none]
                    ++ t ++ [Event.log "warn" "failed to update cache for sink"], w3)
          | (none, t, w3) =>
            (true, [Event.getDeploymentEntry sinkRes.Id val verr,
                    Event.createDeploymentEntry sinkRes.Id data.Url data.User data.Password none]
                   ++ t ++ [Event.log "info" "successfully created deploymentEntry for sink"], w3)

/-- Lines 105-127 of `Start`: the liveness test and the deploy step. -/
def deployStep {W : Type} (env : Env W) (pods : List String) (sinkRes : SinkRes) (w : W) :
    List Event × W :=
  if sinkRes.State = "active" ∧ isDeployed pods sinkRes.Id = false then
    match env.GetDeploymentEntryFromSinkId sinkRes.Id w with
    | ((val, some e), w1) =>
      ([Event.getDeploymentEntry sinkRes.Id val (some e),
        Event.log "warn" "failed to fetch deploymentEntry for sink, skipping"], w1)
    | ((deploymentEntry, none), w1) =>
      match env.CreateOtelCollector sinkRes.OwnerID sinkRes.Id deploymentEntry w1 with
      | (some e, w2) =>
        ([Event.getDeploymentEntry sinkRes.Id deploymentEntry none,
          Event.createOtelCollector sinkRes.OwnerID sinkRes.Id deploymentEntry (some e),
          Event.log "warn" "failed to deploy OtelCollector for sink, skipping"], w2)
      | (none, w2) =>
        ([Event.getDeploymentEntry sinkRes.Id deploymentEntry none,
          Event.createOtelCollector sinkRes.OwnerID sinkRes.Id deploymentEntry none,
          Event.log "info" "successfully created otel collector for sink"], w2)
  else ([], w)

/-- One iteration of the loop of lines 81-128. -/
def loopBody {W : Type} (env : Env W) (pods : List String) (sinkRes : SinkRes) (w : W) :
    List Event × W :=
  match ledgerStep env sinkRes w with
  | (false, t, w1) => (t, w1)
  | (true, t, w1) =>
    match deployStep env pods sinkRes w1 with
    | (t2, w2) => (t ++ t2, w2)

/-- The loop `for _, sinkRes := range sinksRes.Sinks` of lines 81-128. -/
def sinksLoop {W : Type} (env : Env W) (pods : List String) : List SinkRes → W → List Event × W
  | [], w => ([], w)
  | sinkRes :: rest, w =>
    match loopBody env pods sinkRes w with
    | (t, w1) =>
      match sinksLoop env pods rest w1 with
      | (t2, w2) => (t ++ t2, w2)

/-- Lines 130-141 of `Start`: the two subscriptions are spawned, the monitor
is started, and a failure of the monitor calls the root cancel function. -/
def startTail {W : Type} (env : Env W) (w : W) : Option Error × List Event × W :=
  match env.MonitorStart w with
  | (some e, w1) =>
    (some e, [Event.goSubscribeSinks, Event.goSubscribeSinker, Event.monitorStart (some e),
              Event.log "error" "error during monitor routine start", Event.cancel], w1)
  | (none, w1) =>
    (none, [Event.goSubscribeSinks, Event.goSubscribeSinker, Event.monitorStart none], w1)

/-- The function `maestroService.Start`: its result, the trace of the calls
it made and the world it leaves.  The last `loadCancel` of every trace is the
deferred `loadCancelFunction()`. -/
def Start {W : Type} (env : Env W) (w : W) : Option Error × List Event × W :=
  match env.RetrieveSinks w with
  | (.error e, w1) =>
    (some e, [Event.retrieveSinks (some e), Event.loadCancel, Event.loadCancel], w1)
  | (.ok sinks, w1) =>
    match env.GetRunningPods w1 with
    | (.error e, w2) =>
      (some e, [Event.retrieveSinks none, Event.getRunningPods (some e),
                Event.loadCancel, Event.loadCancel], w2)
    | (.ok pods, w2) =>
      match sinksLoop env pods sinks w2 with
      | (t, w3) =>
        match startTail env w3 with
        | (r, t2, w4) =>
          (r, [Event.retrieveSinks none, Event.getRunningPods none] ++ t ++ t2
              ++ [Event.loadCancel], w4)

/-! ## Kinds of events -/

/-- A deployer create for the sink `id`. -/
def isCreateOtelFor (id : String) : Event → Bool
  | .createOtelCollector _ i _ _ => i == id
  | _ => false

/-- A deployer create. -/
def isCreateOtel : Event → Bool
  | .createOtelCollector _ _ _ _ => true
  | _ => false

/-- A ledger creation. -/
def isCreateEntry : Event → Bool
  | .createDeploymentEntry _ _ _ _ _ => true
  | _ => false

/-- A status-cache write. -/
def isCacheSet : Event → Bool
  | .cacheSet _ _ _ => true
  | _ => false

/-- A line of the log. -/
def isLog : Event → Bool
  | .log _ _ => true
  | _ => false

/-- The sinks of a list that the deploy step targets for the id `id`: declared
"active" and not live. -/
def deployTargets (pods : List String) (id : String) (sinks : List SinkRes) : List SinkRes :=
  sinks.filter (fun s => s.Id == id && s.State == "active" && !isDeployed pods s.Id)

/-! ## An in-memory stand-in for the collaborators, for concrete evaluation -/

/-- The state of the stand-in: the ledger (sink id, entry), the status cache
(key, value) and the collectors created (owner, sink id, entry). -/
structure World where
  ledger : List (String × String)
  cache : List (String × String)
  collectors : List (String × String × String)
  deriving DecidableEq, Repr

/-- A stand-in for the collaborators: the registry answers `sinks`, the
monitor lists `pods`, a configuration blob decodes to what `configs` holds for
it and fails to decode otherwise, the ledger and the cache are association
lists, and nothing else fails. -/
def demoEnv (sinks : List SinkRes) (pods : List String) (configs : List (String × SinkData)) :
    Env World where
  RetrieveSinks := fun w => (.ok sinks, w)
  GetRunningPods := fun w => (.ok pods, w)
  Unmarshal := fun blob =>
    match configs.lookup blob with
    | some d => .ok d
    | none => .error "invalid character"
  Marshal := fun d =>
    .ok (d.OwnerID ++ "," ++ d.SinkID ++ "," ++ d.Url ++ "," ++ d.User ++ "," ++ d.Password
      ++ "," ++ d.State)
  GetDeploymentEntryFromSinkId := fun id w =>
    match w.ledger.lookup id with
    | some e => ((e, none), w)
    | none => (("", some "not found"), w)
  CreateDeploymentEntry := fun id url user password w =>
    (none, { w with ledger := (id, url ++ "," ++ user ++ "," ++ password) :: w.ledger })
  Set := fun key value w => (none, { w with cache := (key, value) :: w.cache })
  CreateOtelCollector := fun owner id entry w =>
    (none, { w with collectors := (owner, id, entry) :: w.collectors })
  MonitorStart := fun w => (none, w)

/-- The empty world of the stand-in. -/
def emptyWorld : World := { ledger := [], cache := [], collectors := [] }

/-- The registry sink of the end-to-end example of the spec: id "s1", owner
"o1", declared "active". -/
def sinkS1 : SinkRes := { Id := "s1", OwnerID := "o1", State := "active", Config := "cfg-s1" }

/-- What the configuration blob of the end-to-end example, which holds a url,
a user and a password and nothing else, decodes to. -/
def dataS1 : SinkData :=
  { SinkID := "", OwnerID := "", Url := "http://x", User := "u", Password := "p", State := "" }

/-- A sink whose configuration blob does not decode. -/
def sinkS2 : SinkRes := { Id := "s2", OwnerID := "o1", State := "active", Config := "garbage" }

/-- A third sink, with a configuration that carries its ids and a state. -/
def sinkS3 : SinkRes := { Id := "s3", OwnerID := "o2", State := "active", Config := "cfg-s3" }

/-- What the configuration blob of `sinkS3` decodes to. -/
def dataS3 : SinkData :=
  { SinkID := "s3", OwnerID := "o2", Url := "http://y", User := "v", Password := "q",
    State := "active" }

/-- The configuration blobs that decode, in the examples. -/
def demoConfigs : List (String × SinkData) := [("cfg-s1", dataS1), ("cfg-s3", dataS3)]

/-- The stand-in with an unreachable registry. -/
def registryDownEnv : Env World :=
  { demoEnv [sinkS1] [] demoConfigs with
    RetrieveSinks := fun w => (.error "registry unreachable", w) }

/-- The stand-in with a monitor that cannot list the running pods. -/
def podsDownEnv : Env World :=
  { demoEnv [sinkS1] [] demoConfigs with
    GetRunningPods := fun w => (.error "deployer unreachable", w) }

/-- The stand-in with a registry that returns one sink, whose configuration
does not decode, and a monitor that fails to start. -/
def monitorDownEnv : Env World :=
  { demoEnv [sinkS2] [] demoConfigs with
    MonitorStart := fun w => (some "monitor failed", w) }

end Maestro

/-!
# The event consumer of the sinks package

A shallow embedding of `pkg/sinks/redis/consumer/streams.go`.  The redis
client is an interface over an arbitrary world state `W`; the calls made are
recorded in a trace of `CEvent`s.  `Subscribe` never leaves its read loop, so
it takes the number of reads to run and answers `none` while it is still in
the loop.
-/

namespace Go

/-- A value of type `interface{}`: a string, another scalar, the nil
interface, or a map. -/
inductive Value where
  | str (s : String)
  | num (n : Int)
  | bool (b : Bool)
  | null
  | obj (fields : List (String × Value))

end Go

namespace Consumer

open Go

/-- A Go error value, identified by its message (`err.Error()`). -/
abbrev Error := String

/-- The type `map[string]interface{}`, an association list read by its first
entry for a key. -/
abbrev EventMap := List (String × Value)

def stream : String := "mainflux.things"

def group : String := "orb.prom-sink"

def thingPrefix : String := "thing."

def thingRemove : String := thingPrefix ++ "remove"

def thingDisconnect : String := thingPrefix ++ "disconnect"

def channelPrefix : String := "channel."

def channelUpdate : String := channelPrefix ++ "update"

def channelRemove : String := channelPrefix ++ "remove"

/-- The constant `exists` of the source. -/
def groupExists : String := "BUSYGROUP Consumer Group name already exists"

/-- The type `removeEvent`, declared outside the given sources, with the
field the decoders set. -/
structure removeEvent where
  id : String
  deriving DecidableEq, Repr

/-- The type `updateChannelEvent`, declared outside the given sources, with
the fields `decodeUpdateChannel` sets; `metadata` is `none` for a nil map. -/
structure updateChannelEvent where
  id : String
  name : String
  metadata : Option EventMap

/-- The type `disconnectEvent`, declared outside the given sources, with the
fields the decoder sets. -/
structure disconnectEvent where
  channelID : String
  thingID : String
  deriving DecidableEq, Repr

/-- The type `redis.XMessage`. -/
structure XMessage where
  ID : String
  Values : EventMap

/-- The type `redis.XStream`. -/
structure XStream where
  Stream : String
  Messages : List XMessage

/-- The fields of `redis.XReadGroupArgs` that `Subscribe` sets. -/
structure XReadGroupArgs where
  Group : String
  Consumer : String
  Streams : List String
  Count : Nat
  deriving DecidableEq, Repr

/-- The calls of `Subscribe`, in order, with their outcome. -/
inductive CEvent where
  | xGroupCreateMkStream (stream group start : String) (err : Option Error)
  | xReadGroup (args : XReadGroupArgs) (err : Option Error)
  | printf (event : EventMap)
  | handleRemoveThing (rte : removeEvent) (err : Option Error)
  | warn (msg : String)
  | xAck (stream group id : String)

/-- The methods of `redis.Client` that `Subscribe` calls. -/
structure Client (W : Type) where
  XGroupCreateMkStream : String → String → String → W → Option Error × W
  XReadGroup : XReadGroupArgs → W → Except Error (List XStream) × W
  XAck : String → String → String → W → W

/-- The function `read`: `event[key].(string)` with the default when the
assertion fails. -/
def read (event : EventMap) (key def_ : String) : String :=
  match event.lookup key with
  | some (.str val) => val
  | _ => def_

/-- The function `decodeRemoveThing`. -/
def decodeRemoveThing (event : EventMap) : removeEvent :=
  { id := read event "id" "" }

/-- Go `json.Unmarshal(data, v)` for a `v` that is not a pointer: the syntax
error of `data` when it is not valid JSON, and an `InvalidUnmarshalError`
when it is; `valid` is the syntax check. -/
def jsonUnmarshalByValue (valid : String → Bool) (data : String) : Option Error :=
  if valid data then some "json: Unmarshal(non-pointer map[string]interface \x7b\x7d)"
  else some "invalid character"

/-- The function `decodeUpdateChannel`; `valid` is the syntax check of
`json.Unmarshal`. -/
def decodeUpdateChannel (valid : String → Bool) (event : EventMap) : updateChannelEvent :=
  let strmeta := read event "metadata" "\x7b\x7d"
  let metadata : Option EventMap := none
  let metadata : Option EventMap :=
    match jsonUnmarshalByValue valid strmeta with
    | some _ => some []
    | none => metadata
  { id := read event "id" "", name := read event "name" "", metadata := metadata }

/-- The function `decodeRemoveChannel`. -/
def decodeRemoveChannel (event : EventMap) : removeEvent :=
  { id := read event "id" "" }

/-- The function `decodeDisconnectThing`. -/
def decodeDisconnectThing (event : EventMap) : disconnectEvent :=
  { channelID := read event "chan_id" "", thingID := read event "thing_id" "" }

/-- The method `eventStore.handleRemoveThing`: its body is `return nil`, the
call of the writer service is commented out; `w` is the state of everything
the event store reaches. -/
def handleRemoveThing {W : Type} (_rte : removeEvent) (w : W) : Option Error × W :=
  (none, w)

/-- Lines 71-85 of `Subscribe`, one message of a batch, with the handler
called at line 79 as the parameter `handle`.  The boolean is `false` when the
iteration ends in the `break` of line 83. -/
def messageStepWith {W : Type} (client : Client W)
    (handle : removeEvent → W → Option Error × W) (msg : XMessage) (w : W) :
    Bool × List CEvent × W :=
  let event := msg.Values
  let switched : Option Error × List CEvent × W :=
    match event.lookup "operation" with
    | some (.str op) =>
      if op = thingRemove then
        let rte := decodeRemoveThing event
        match handle rte w with
        | (err, w1) => (err, [CEvent.handleRemoveThing rte err], w1)
      else (none, [], w)
    | _ => (none, [], w)
  match switched with
  | (some err, t, w1) =>
    (false, [CEvent.printf event] ++ t
      ++ [CEvent.warn ("Failed to handle event sourcing: " ++ err)], w1)
  | (none, t, w1) =>
    (true, [CEvent.printf event] ++ t ++ [CEvent.xAck stream group msg.ID],
      client.XAck stream group msg.ID w1)

/-- The loop `for _, msg := range streams[0].Messages` of lines 70-86, with
the handler as a parameter. -/
def messagesLoopWith {W : Type} (client : Client W)
    (handle : removeEvent → W → Option Error × W) : List XMessage → W → List CEvent × W
  | [], w => ([], w)
  | msg :: rest, w =>
    match messageStepWith client handle msg w with
    | (false, t, w1) => (t, w1)
    | (true, t, w1) =>
      match messagesLoopWith client handle rest w1 with
      | (t2, w2) => (t ++ t2, w2)

/-- Lines 71-85 of `Subscribe` as they are, with `handleRemoveThing`. -/
def messageStep {W : Type} (client : Client W) (msg : XMessage) (w : W) :
    Bool × List CEvent × W :=
  messageStepWith client handleRemoveThing msg w

/-- The loop of lines 70-86 as it is, with `handleRemoveThing`. -/
def messagesLoop {W : Type} (client : Client W) (batch : List XMessage) (w : W) :
    List CEvent × W :=
  messagesLoopWith client handleRemoveThing batch w

/-- The arguments of the read of lines 60-65. -/
def readArgs (esconsumer : String) : XReadGroupArgs :=
  { Group := group, Consumer := esconsumer, Streams := [stream, ">"], Count := 100 }

/-- The loop `for` of lines 59-87, run for `fuel` reads. -/
def readLoop {W : Type} (client : Client W) (esconsumer : String) : Nat → W → List CEvent × W
  | 0, w => ([], w)
  | fuel + 1, w =>
    match client.XReadGroup (readArgs esconsumer) w with
    | (.error e, w1) =>
      match readLoop client esconsumer fuel w1 with
      | (t, w2) => (CEvent.xReadGroup (readArgs esconsumer) (some e) :: t, w2)
    | (.ok [], w1) =>
      match readLoop client esconsumer fuel w1 with
      | (t, w2) => (CEvent.xReadGroup (readArgs esconsumer) none :: t, w2)
    | (.ok (s0 :: _), w1) =>
      match messagesLoop client s0.Messages w1 with
      | (t, w2) =>
        match readLoop client esconsumer fuel w2 with
        | (t2, w3) => (CEvent.xReadGroup (readArgs esconsumer) none :: (t ++ t2), w3)

/-- The method `eventStore.Subscribe`, run for `fuel` reads of its loop: the
error it returned, or `none` while it is in the loop, the trace and the
world.  The argument `subject` is not used by the source. -/
def Subscribe {W : Type} (client : Client W) (esconsumer : String) (_subject : String)
    (fuel : Nat) (w : W) : Option Error × List CEvent × W :=
  match client.XGroupCreateMkStream stream group "$" w with
  | (some err, w1) =>
    if err ≠ groupExists then
      (some err, [CEvent.xGroupCreateMkStream stream group "$" (some err)], w1)
    else
      match readLoop client esconsumer fuel w1 with
      | (t, w2) => (none, CEvent.xGroupCreateMkStream stream group "$" (some err) :: t, w2)
  | (none, w1) =>
    match readLoop client esconsumer fuel w1 with
    | (t, w2) => (none, CEvent.xGroupCreateMkStream stream group "$" none :: t, w2)

/-- The loop `for` of lines 59-87, run for `fuel` reads, with the handler
called at line 79 as the parameter `handle`. -/
def readLoopWith {W : Type} (client : Client W)
    (handle : removeEvent → W → Option Error × W) (esconsumer : String) :
    Nat → W → List CEvent × W
  | 0, w => ([], w)
  | fuel + 1, w =>
    match client.XReadGroup (readArgs esconsumer) w with
    | (.error e, w1) =>
      match readLoopWith client handle esconsumer fuel w1 with
      | (t, w2) => (CEvent.xReadGroup (readArgs esconsumer) (some e) :: t, w2)
    | (.ok [], w1) =>
      match readLoopWith client handle esconsumer fuel w1 with
      | (t, w2) => (CEvent.xReadGroup (readArgs esconsumer) none :: t, w2)
    | (.ok (s0 :: _), w1) =>
      match messagesLoopWith client handle s0.Messages w1 with
      | (t, w2) =>
        match readLoopWith client handle esconsumer fuel w2 with
        | (t2, w3) => (CEvent.xReadGroup (readArgs esconsumer) none :: (t ++ t2), w3)

/-- The method `eventStore.Subscribe` with the handler called at line 79 as
the parameter `handle`; `Subscribe` is its instance at `handleRemoveThing`. -/
def SubscribeWith {W : Type} (client : Client W)
    (handle : removeEvent → W → Option Error × W) (esconsumer : String) (_subject : String)
    (fuel : Nat) (w : W) : Option Error × List CEvent × W :=
  match client.XGroupCreateMkStream stream group "$" w with
  | (some err, w1) =>
    if err ≠ groupExists then
      (some err, [CEvent.xGroupCreateMkStream stream group "$" (some err)], w1)
    else
      match readLoopWith client handle esconsumer fuel w1 with
      | (t, w2) => (none, CEvent.xGroupCreateMkStream stream group "$" (some err) :: t, w2)
  | (none, w1) =>
    match readLoopWith client handle esconsumer fuel w1 with
    | (t, w2) => (none, CEvent.xGroupCreateMkStream stream group "$" none :: t, w2)

/-! ## Reading a trace -/

/-- The message ids acknowledged in a trace, in order. -/
def ackedIds : List CEvent → List String
  | [] => []
  | .xAck _ _ id :: t => id :: ackedIds t
  | _ :: t => ackedIds t

/-- The handler calls of a trace, in order, with their outcome. -/
def handlerCalls : List CEvent → List (removeEvent × Option Error)
  | [] => []
  | .handleRemoveThing rte err :: t => (rte, err) :: handlerCalls t
  | _ :: t => handlerCalls t

/-- Whether the switch of line 76 takes the case `thingRemove`. -/
def isThingRemove (msg : XMessage) : Bool :=
  match msg.Values.lookup "operation" with
  | some (.str op) => op == thingRemove
  | _ => false

/-- Whether the "operation" field of a message holds one of the four
operation values the source names. -/
def recognized (msg : XMessage) : Bool :=
  match msg.Values.lookup "operation" with
  | some (.str op) =>
    op == thingRemove || op == thingDisconnect || op == channelUpdate || op == channelRemove
  | _ => false

/-! ## An in-memory stand-in for the redis client -/

/-- The state of the stand-in: the batches still to deliver and the ids
acknowledged so far. -/
structure Log where
  pending : List (List XMessage)
  acked : List String

/-- A stand-in for the redis client: the group creation answers `createErr`,
a read delivers the next pending batch, an acknowledgement is recorded. -/
def demoClient (createErr : Option Error) : Client Log where
  XGroupCreateMkStream := fun _ _ _ w => (createErr, w)
  XReadGroup := fun _ w =>
    match w.pending with
    | [] => (.ok [], w)
    | b :: rest => (.ok [{ Stream := stream, Messages := b }], { w with pending := rest })
  XAck := fun _ _ id w => { w with acked := w.acked ++ [id] }

/-- A handler that fails on the sink with the id `bad`. -/
def failOn (bad : String) (rte : removeEvent) (w : Log) : Option Error × Log :=
  if rte.id = bad then (some "remove failed", w) else (none, w)

/-- A "thing.remove" message for the sink `id`. -/
def removeMsg (msgId id : String) : XMessage :=
  { ID := msgId, Values := [("operation", .str "thing.remove"), ("id", .str id)] }

/-- A message with the operation `op`. -/
def opMsg (msgId op : String) : XMessage :=
  { ID := msgId, Values := [("operation", .str op), ("id", .str "c1")] }

/-- A message without an "operation" field. -/
def bareMsg (msgId : String) : XMessage :=
  { ID := msgId, Values := [("id", .str "c1")] }

end Consumer

/-!
# The exporter builders of maestro

A shallow embedding of `maestro/config/exporter_builder.go`.  A Go panic is
the `error` of `Except`, with the message of the runtime.
-/

namespace Config

open Go

/-- The type `types.Metadata`, a `map[string]interface{}`. -/
abbrev Metadata := List (String × Value)

/-- Modelled from the spec: the method `types.Metadata.GetSubMetadata` is
declared outside the given sources; it answers the map stored under the key,
and nil (`none`) when the key holds none, which is what its callers test for
("exporter metadata is missing"). -/
def GetSubMetadata (config : Metadata) (key : String) : Option Metadata :=
  match config.lookup key with
  | some (.obj m) => some m
  | _ => none

/-- The type `Auth`, declared outside the given sources. -/
structure Auth where
  Authenticator : String
  deriving DecidableEq, Repr

/-- The type `PrometheusRemoteWriteExporterConfig`, declared outside the given
sources, with the fields the builder sets; `Headers` is `none` for a nil map. -/
structure PrometheusRemoteWriteExporterConfig where
  Endpoint : String
  Auth : Auth
  Headers : Option (List (String × String))
  deriving DecidableEq, Repr

/-- The type `OTLPExporterConfig`, declared outside the given sources, with
the fields the builder sets. -/
structure OTLPExporterConfig where
  Endpoint : String
  Auth : Auth
  Headers : Option (List (String × String))
  deriving DecidableEq, Repr

/-- The type `Exporters`, declared outside the given sources, with the two
pointers the builders set. -/
structure Exporters where
  PrometheusRemoteWrite : Option PrometheusRemoteWriteExporterConfig
  OTLPExporter : Option OTLPExporterConfig
  deriving DecidableEq, Repr

/-- The type assertion `header.(string)` in its one-value form, which panics
when the value is not a string; indexing a nil map gives the nil interface.
A number is one decoded from JSON, a `float64`. -/
def assertString : Option Value → Except String String
  | some (.str s) => .ok s
  | some (.num _) => .error "interface conversion: interface \x7b\x7d is float64, not string"
  | some (.bool _) => .error "interface conversion: interface \x7b\x7d is bool, not string"
  | some (.obj _) =>
    .error "interface conversion: interface \x7b\x7d is map[string]interface \x7b\x7d, not string"
  | some .null => .error "interface conversion: interface \x7b\x7d is nil, not string"
  | none => .error "interface conversion: interface \x7b\x7d is nil, not string"

/-- The expression `config.GetSubMetadata("headers")["X-Scope-OrgID"]`. -/
def scopeOrgHeader (config : Metadata) : Option Value :=
  match GetSubMetadata config "headers" with
  | some headers => headers.lookup "X-Scope-OrgID"
  | none => none

/-- The method `PrometheusExporterConfig.GetExportersFromMetadata`. -/
def PrometheusExporterConfig.GetExportersFromMetadata (config : Metadata)
    (authenticationExtensionName : String) : Except String (Exporters × String) :=
  let exporters : Exporters := { PrometheusRemoteWrite := none, OTLPExporter := none }
  match GetSubMetadata config "exporter" with
  | none => .ok (exporters, "")
  | some exporterMetadata =>
    match exporterMetadata.lookup "remote_host" with
    | some (.str endpointCfg) =>
      let remoteWrite : PrometheusRemoteWriteExporterConfig :=
        { Endpoint := endpointCfg, Auth := { Authenticator := authenticationExtensionName },
          Headers := none }
      let header := scopeOrgHeader config
      match assertString header with
      | .error p => .error p
      | .ok headerStr =>
        if headerStr ≠ "" then
          let withHeaders : PrometheusRemoteWriteExporterConfig :=
            { remoteWrite with Headers := some [("X-Scope-OrgID", headerStr)] }
          .ok ({ exporters with PrometheusRemoteWrite := some withHeaders },
            "prometheusremotewrite")
        else
          .ok ({ exporters with PrometheusRemoteWrite := some remoteWrite },
            "prometheusremotewrite")
    | _ => .ok (exporters, "")

/-- The method `OTLPHTTPExporterBuilder.GetExportersFromMetadata`. -/
def OTLPHTTPExporterBuilder.GetExportersFromMetadata (config : Metadata)
    (authenticationExtensionName : String) : Except String (Exporters × String) :=
  let exporters : Exporters := { PrometheusRemoteWrite := none, OTLPExporter := none }
  match GetSubMetadata config "exporter" with
  | none => .ok (exporters, "")
  | some exporterMetadata =>
    match exporterMetadata.lookup "endpoint" with
    | some (.str endpointCfg) =>
      let otlp : OTLPExporterConfig :=
        { Endpoint := endpointCfg, Auth := { Authenticator := authenticationExtensionName },
          Headers := none }
      let header := scopeOrgHeader config
      match assertString header with
      | .error p => .error p
      | .ok headerStr =>
        if headerStr ≠ "" then
          let withHeaders : OTLPExporterConfig :=
            { otlp with Headers := some [("X-Scope-OrgID", headerStr)] }
          .ok ({ exporters with OTLPExporter := some withHeaders }, "otlphttp")
        else .ok ({ exporters with OTLPExporter := some otlp }, "otlphttp")
    | _ => .ok (exporters, "")

end Config

namespace Maestro

/-! ## The shape of a pass -/

theorem loopBody_eq {W : Type} (env : Env W) (pods : List String) (s : SinkRes) (w : W) :
    loopBody env pods s w =
      if (ledgerStep env s w).1 = true then
        ((ledgerStep env s w).2.1 ++ (deployStep env pods s (ledgerStep env s w).2.2).1,
          (deployStep env pods s (ledgerStep env s w).2.2).2)
      else ((ledgerStep env s w).2.1, (ledgerStep env s w).2.2) := by
  unfold loopBody
  rcases h : ledgerStep env s w with ⟨b, t, w1⟩
  cases b <;> simp

theorem sinksLoop_cons {W : Type} (env : Env W) (pods : List String) (s : SinkRes)
    (rest : List SinkRes) (w : W) :
    sinksLoop env pods (s :: rest) w =
      ((loopBody env pods s w).1 ++ (sinksLoop env pods rest (loopBody env pods s w).2).1,
        (sinksLoop env pods rest (loopBody env pods s w).2).2) := by
  simp [sinksLoop]

theorem sinksLoop_append {W : Type} (env : Env W) (pods : List String)
    (pre post : List SinkRes) (w : W) :
    sinksLoop env pods (pre ++ post) w =
      ((sinksLoop env pods pre w).1 ++ (sinksLoop env pods post (sinksLoop env pods pre w).2).1,
        (sinksLoop env pods post (sinksLoop env pods pre w).2).2) := by
  induction pre generalizing w with
  | nil => simp [sinksLoop]
  | cons s pre ih => simp [sinksLoop_cons, ih, List.append_assoc]

/-- The trace of a pass over `pre ++ s :: post` is the trace over `pre`, then
the iteration of `s` in the world `pre` left, then the trace over `post`. -/
theorem sinksLoop_occurrence {W : Type} (env : Env W) (pods : List String)
    (pre post : List SinkRes) (s : SinkRes) (w : W) :
    (sinksLoop env pods (pre ++ s :: post) w).1 =
      (sinksLoop env pods pre w).1 ++ (loopBody env pods s (sinksLoop env pods pre w).2).1 ++
        (sinksLoop env pods post
          (loopBody env pods s (sinksLoop env pods pre w).2).2).1 := by
  simp [sinksLoop_append, sinksLoop_cons, List.append_assoc]

/-- Every event of a pass belongs to the iteration of one sink of the list,
and that iteration is a contiguous part of the trace. -/
theorem mem_sinksLoop {W : Type} (env : Env W) (pods : List String) (sinks : List SinkRes)
    (w : W) (ev : Event) (h : ev ∈ (sinksLoop env pods sinks w).1) :
    ∃ s ∈ sinks, ∃ w1, ev ∈ (loopBody env pods s w1).1 ∧
      (loopBody env pods s w1).1 <:+: (sinksLoop env pods sinks w).1 := by
  induction sinks generalizing w with
  | nil => simp [sinksLoop] at h
  | cons s rest ih =>
    rw [sinksLoop_cons] at h ⊢
    rcases List.mem_append.1 h with h1 | h1
    · exact ⟨s, List.mem_cons_self _ _, w, h1,
        ⟨[], (sinksLoop env pods rest (loopBody env pods s w).2).1, by simp⟩⟩
    · obtain ⟨s1, hs1, w1, hev, a, b, hab⟩ := ih _ h1
      exact ⟨s1, List.mem_cons_of_mem _ hs1, w1, hev,
        ⟨(loopBody env pods s w).1 ++ a, b, by simp [← hab, List.append_assoc]⟩⟩

theorem Start_of_fetched {W : Type} (env : Env W) (w w1 w2 : W) (sinks : List SinkRes)
    (pods : List String) (hs : env.RetrieveSinks w = (.ok sinks, w1))
    (hp : env.GetRunningPods w1 = (.ok pods, w2)) :
    Start env w =
      ((startTail env (sinksLoop env pods sinks w2).2).1,
        [Event.retrieveSinks none, Event.getRunningPods none] ++ (sinksLoop env pods sinks w2).1
          ++ (startTail env (sinksLoop env pods sinks w2).2).2.1 ++ [Event.loadCancel],
        (startTail env (sinksLoop env pods sinks w2).2).2.2) := by
  simp [Start, hs, hp]

theorem mem_startTail {W : Type} (env : Env W) (w : W) (ev : Event)
    (h : ev ∈ (startTail env w).2.1) :
    ev = Event.goSubscribeSinks ∨ ev = Event.goSubscribeSinker ∨
      ev = Event.monitorStart (env.MonitorStart w).1 ∨
      ev = Event.log "error" "error during monitor routine start" ∨ ev = Event.cancel := by
  unfold startTail at h
  rcases hm : env.MonitorStart w with ⟨r, w1⟩
  cases r <;> simp [hm] at h <;> aesop

/-- An event of `Start` after two successful fetches that is no fetch, no
start of a subscription or of the monitor, no cancellation and no line of the
log belongs to the loop. -/
theorem mem_Start_loop {W : Type} (env : Env W) (w w1 w2 : W) (sinks : List SinkRes)
    (pods : List String) (hs : env.RetrieveSinks w = (.ok sinks, w1))
    (hp : env.GetRunningPods w1 = (.ok pods, w2)) (ev : Event)
    (h : ev ∈ (Start env w).2.1)
    (hk : isCreateOtel ev = true ∨ isCreateEntry ev = true ∨ isCacheSet ev = true) :
    ev ∈ (sinksLoop env pods sinks w2).1 := by
  rw [Start_of_fetched env w w1 w2 sinks pods hs hp] at h
  simp only [List.mem_append, List.mem_cons, List.mem_singleton, List.not_mem_nil,
    or_false] at h
  rcases h with ((h | h) | h) | h
  · rcases h with h | h <;> subst h <;> simp [isCreateOtel, isCreateEntry, isCacheSet] at hk
  · exact h
  · rcases mem_startTail env _ ev h with h | h | h | h | h <;> subst h <;>
      simp [isCreateOtel, isCreateEntry, isCacheSet] at hk
  · subst h; simp [isCreateOtel, isCreateEntry, isCacheSet] at hk

theorem loop_infix_Start {W : Type} (env : Env W) (w w1 w2 : W) (sinks : List SinkRes)
    (pods : List String) (hs : env.RetrieveSinks w = (.ok sinks, w1))
    (hp : env.GetRunningPods w1 = (.ok pods, w2)) :
    (sinksLoop env pods sinks w2).1 <:+: (Start env w).2.1 := by
  rw [Start_of_fetched env w w1 w2 sinks pods hs hp]
  exact ⟨[Event.retrieveSinks none, Event.getRunningPods none],
    (startTail env (sinksLoop env pods sinks w2).2).2.1 ++ [Event.loadCancel],
    by simp [List.append_assoc]⟩

/-! ## Liveness correlation -/

theorem startsWith_iff (s sub : List Char) :
    startsWith s sub = true ↔ ∃ post, s = sub ++ post := by
  induction sub generalizing s with
  | nil => simp [startsWith]
  | cons d sub ih =>
    cases s with
    | nil => simp [startsWith]
    | cons c s =>
      simp only [startsWith, Bool.and_eq_true, beq_iff_eq, ih, List.cons_append, List.cons.injEq]
      constructor
      · rintro ⟨rfl, post, rfl⟩
        exact ⟨post, rfl, rfl⟩
      · rintro ⟨post, rfl, rfl⟩
        exact ⟨rfl, post, rfl⟩

theorem indexExists_iff (s sub : List Char) :
    indexExists s sub = true ↔ ∃ pre post, s = pre ++ sub ++ post := by
  induction s with
  | nil =>
    simp only [indexExists, startsWith_iff]
    constructor
    · rintro ⟨post, h⟩
      exact ⟨[], post, by simpa using h⟩
    · rintro ⟨pre, post, h⟩
      have h1 : pre ++ sub ++ post = [] := h.symm
      simp only [List.append_eq_nil] at h1
      exact ⟨[], by simp [h1.1.2]⟩
  | cons c s ih =>
    simp only [indexExists, Bool.or_eq_true, startsWith_iff, ih]
    constructor
    · rintro (⟨post, h⟩ | ⟨pre, post, h⟩)
      · exact ⟨[], post, by simpa using h⟩
      · exact ⟨c :: pre, post, by simp [h]⟩
    · rintro ⟨pre, post, h⟩
      cases pre with
      | nil => exact Or.inl ⟨post, by simpa using h⟩
      | cons p pre =>
        simp only [List.cons_append, List.cons.injEq] at h
        exact Or.inr ⟨pre, post, h.2⟩

theorem podsLoop_iff (id : String) (pods : List String) :
    podsLoop id pods = true ↔ ∃ pod ∈ pods, Contains pod id = true := by
  induction pods with
  | nil => simp [podsLoop]
  | cons pod rest ih =>
    by_cases h : Contains pod id = true
    · simp [podsLoop, h]
    · simp [podsLoop, h, ih]

theorem isDeployed_eq_podsLoop (pods : List String) (id : String) :
    isDeployed pods id = podsLoop id pods := by
  cases pods with
  | nil => simp [isDeployed, podsLoop]
  | cons pod rest => simp [isDeployed]

/-- C1: the bootstrap pass classifies a sink as live exactly when some
live-deployment identifier contains the sink id as a substring, that is, when
some identifier is the sink id with some characters before and after it;
`["abc-sink-123-xyz"]` makes `"sink-123"` live, `["other-456"]` and the empty
list do not. -/
theorem isDeployed_iff_substring (pods : List String) (id : String) :
    (isDeployed pods id = true ↔
      ∃ pod ∈ pods, ∃ pre post : List Char, pod.data = pre ++ id.data ++ post) ∧
    isDeployed ["abc-sink-123-xyz"] "sink-123" = true ∧
    isDeployed ["other-456"] "sink-123" = false ∧
    isDeployed [] "sink-123" = false := by
  refine ⟨?_, by decide, by decide, by decide⟩
  rw [isDeployed_eq_podsLoop, podsLoop_iff]
  simp only [Contains, indexExists_iff]

/-! ## The events of one iteration -/

theorem mem_updateSinkCache {W : Type} (env : Env W) (d : SinkData) (w : W) (ev : Event)
    (h : ev ∈ (updateSinkCache env d w).2.1) :
    ∃ bytes, env.Marshal { d with State := Unknown } = .ok bytes ∧
      ev = Event.cacheSet ("sinker_key-" ++ d.OwnerID ++ ":" ++ d.SinkID) bytes
        (env.Set ("sinker_key-" ++ d.OwnerID ++ ":" ++ d.SinkID) bytes w).1 := by
  unfold updateSinkCache at h
  simp only at h
  rcases hm : env.Marshal { d with State := Unknown } with e | bytes
  · simp [hm] at h
  · refine ⟨bytes, rfl, ?_⟩
    simp only [hm] at h
    have hk : ("sinker_key" ++ "-" : String) = "sinker_key-" := by decide
    rw [hk] at h
    rcases hset : env.Set ("sinker_key-" ++ d.OwnerID ++ ":" ++ d.SinkID) bytes w
      with ⟨r, w1⟩
    rw [hset] at h
    cases r <;> simp at h <;> simp [h]

theorem mem_ledgerStep {W : Type} (env : Env W) (s : SinkRes) (w : W) (ev : Event)
    (h : ev ∈ (ledgerStep env s w).2.1) :
    isLog ev = true ∨ (∃ val err, ev = Event.getDeploymentEntry s.Id val err) ∨
      ∃ d, env.Unmarshal s.Config = .ok d ∧
        (env.GetDeploymentEntryFromSinkId s.Id w).1.1 = "" ∧
        ((∃ r, ev = Event.createDeploymentEntry s.Id d.Url d.User d.Password r) ∨
          ∃ w2, (env.CreateDeploymentEntry s.Id d.Url d.User d.Password
              (env.GetDeploymentEntryFromSinkId s.Id w).2) = (none, w2) ∧
            ev ∈ (updateSinkCache env d w2).2.1) := by
  unfold ledgerStep at h
  rcases hu : env.Unmarshal s.Config with e | d
  · simp [hu] at h
    simp [h, isLog]
  · rcases hg : env.GetDeploymentEntryFromSinkId s.Id w with ⟨⟨val, verr⟩, w1⟩
    by_cases hval : val = ""
    · rcases hc : env.CreateDeploymentEntry s.Id d.Url d.User d.Password w1 with ⟨r, w2⟩
      cases r with
      | some e =>
        simp [hu, hg, hval, hc] at h
        rcases h with h | h | h
        · exact Or.inr (Or.inl ⟨_, _, h⟩)
        · exact Or.inr (Or.inr ⟨d, rfl, hval, Or.inl ⟨_, h⟩⟩)
        · simp [h, isLog]
      | none =>
        rcases hc2 : updateSinkCache env d w2 with ⟨r2, t, w3⟩
        have ht : t = (updateSinkCache env d w2).2.1 := by rw [hc2]
        cases r2 <;> simp [hu, hg, hval, hc, hc2] at h <;>
          rcases h with h | h | h | h
        all_goals first
          | exact Or.inr (Or.inl ⟨_, _, h⟩)
          | exact Or.inr (Or.inr ⟨d, rfl, hval, Or.inl ⟨_, h⟩⟩)
          | exact Or.inr (Or.inr ⟨d, rfl, hval, Or.inr ⟨w2, hc, ht ▸ h⟩⟩)
          | (left; simp [h, isLog])
    · simp [hu, hg, hval] at h
      rcases h with h | h
      · exact Or.inr (Or.inl ⟨_, _, h⟩)
      · simp [h, isLog]

theorem ledgerStep_no_createOtel {W : Type} (env : Env W) (s : SinkRes) (w : W) (ev : Event)
    (h : ev ∈ (ledgerStep env s w).2.1) : isCreateOtel ev = false := by
  rcases mem_ledgerStep env s w ev h with h1 | ⟨_, _, h1⟩ | ⟨d, _, _, ⟨_, h1⟩ | ⟨w2, _, h1⟩⟩
  · cases ev <;> simp_all [isLog, isCreateOtel]
  · simp [h1, isCreateOtel]
  · simp [h1, isCreateOtel]
  · obtain ⟨_, _, h2⟩ := mem_updateSinkCache env d w2 ev h1
    simp [h2, isCreateOtel]

/-- The deployer creates of the deploy step: one, for a sink declared
"active" that is not live and whose ledger lookup did not fail, with the
owner, the id and the entry looked up; none otherwise. -/
theorem deployStep_createOtel {W : Type} (env : Env W) (pods : List String) (s : SinkRes)
    (w : W) (ev : Event) (h : ev ∈ (deployStep env pods s w).1)
    (hk : isCreateOtel ev = true) :
    s.State = "active" ∧ isDeployed pods s.Id = false ∧
      ∃ entry w1, env.GetDeploymentEntryFromSinkId s.Id w = ((entry, none), w1) ∧
        ev = Event.createOtelCollector s.OwnerID s.Id entry
          (env.CreateOtelCollector s.OwnerID s.Id entry w1).1 ∧
        (deployStep env pods s w).1 =
          [Event.getDeploymentEntry s.Id entry none, ev] ++ (deployStep env pods s w).1.drop 2 := by
  unfold deployStep at h ⊢
  by_cases hc : s.State = "active" ∧ isDeployed pods s.Id = false
  · refine ⟨hc.1, hc.2, ?_⟩
    rcases hg : env.GetDeploymentEntryFromSinkId s.Id w with ⟨⟨val, verr⟩, w1⟩
    cases verr with
    | some e =>
      simp [hc, hg] at h
      rcases h with h | h <;> simp [h, isCreateOtel] at hk
    | none =>
      rcases ho : env.CreateOtelCollector s.OwnerID s.Id val w1 with ⟨r, w2⟩
      cases r <;> simp [hc, hg, ho] at h <;> rcases h with h | h | h <;>
        simp [h, isCreateOtel] at hk <;>
        exact ⟨val, w1, rfl, by simp [ho, h], by simp [hc, ho, h]⟩
  · simp [hc] at h

theorem isDeployed_false_iff (pods : List String) (id : String) :
    isDeployed pods id = false ↔ ∀ pod ∈ pods, Contains pod id = false := by
  rw [isDeployed_eq_podsLoop, ← Bool.not_eq_true, podsLoop_iff]
  simp

theorem isCreateOtel_of_for (id : String) (ev : Event) (h : isCreateOtelFor id ev = true) :
    isCreateOtel ev = true := by
  cases ev <;> simp_all [isCreateOtelFor, isCreateOtel]

theorem filter_eq_nil_of_forall (p : Event → Bool) (t : List Event)
    (h : ∀ ev ∈ t, p ev = false) : t.filter p = [] := by
  rw [List.filter_eq_nil_iff]
  intro ev hev
  simp [h ev hev]

theorem deployStep_count {W : Type} (env : Env W) (pods : List String) (s : SinkRes) (w : W)
    (id : String) :
    ((deployStep env pods s w).1.filter (isCreateOtelFor id)).length ≤
      (deployTargets pods id [s]).length := by
  unfold deployStep
  by_cases hc : s.State = "active" ∧ isDeployed pods s.Id = false
  · rcases hg : env.GetDeploymentEntryFromSinkId s.Id w with ⟨⟨val, verr⟩, w1⟩
    obtain ⟨hc1, hc2⟩ := hc
    cases verr with
    | some e => simp [hc1, hc2, List.filter, isCreateOtelFor]
    | none =>
      rcases ho : env.CreateOtelCollector s.OwnerID s.Id val w1 with ⟨r, w2⟩
      cases r <;> simp [hc1, hc2, ho, List.filter, isCreateOtelFor, deployTargets] <;>
        split <;> simp
  · simp [hc]

theorem loopBody_count {W : Type} (env : Env W) (pods : List String) (s : SinkRes) (w : W)
    (id : String) :
    ((loopBody env pods s w).1.filter (isCreateOtelFor id)).length ≤
      (deployTargets pods id [s]).length := by
  have hl : (ledgerStep env s w).2.1.filter (isCreateOtelFor id) = [] := by
    apply filter_eq_nil_of_forall
    intro ev hev
    have h1 := ledgerStep_no_createOtel env s w ev hev
    cases h2 : isCreateOtelFor id ev
    · rfl
    · rw [isCreateOtel_of_for id ev h2] at h1
      cases h1
  rw [loopBody_eq]
  by_cases hr : (ledgerStep env s w).1 = true
  · simp only [hr, if_true, List.filter_append, hl, List.nil_append]
    exact deployStep_count env pods s _ id
  · simp [hr, hl]

theorem sinksLoop_count {W : Type} (env : Env W) (pods : List String) (sinks : List SinkRes)
    (w : W) (id : String) :
    ((sinksLoop env pods sinks w).1.filter (isCreateOtelFor id)).length ≤
      (deployTargets pods id sinks).length := by
  induction sinks generalizing w with
  | nil => simp [sinksLoop]
  | cons s rest ih =>
    rw [sinksLoop_cons]
    simp only [List.filter_append, List.length_append]
    have h1 := loopBody_count env pods s w id
    have h2 := ih (loopBody env pods s w).2
    have h3 : (deployTargets pods id (s :: rest)).length =
        (deployTargets pods id [s]).length + (deployTargets pods id rest).length := by
      unfold deployTargets
      rw [← List.length_append, ← List.filter_append]
      rfl
    omega

/-- A filter that keeps only events of the loop sees, in the trace of `Start`
after two successful fetches, what it sees in the trace of the loop. -/
theorem Start_filter {W : Type} (env : Env W) (w w1 w2 : W) (sinks : List SinkRes)
    (pods : List String) (hs : env.RetrieveSinks w = (.ok sinks, w1))
    (hp : env.GetRunningPods w1 = (.ok pods, w2)) (p : Event → Bool)
    (hk : ∀ ev, p ev = true →
      isCreateOtel ev = true ∨ isCreateEntry ev = true ∨ isCacheSet ev = true) :
    (Start env w).2.1.filter p = (sinksLoop env pods sinks w2).1.filter p := by
  have hno : ∀ ev, isCreateOtel ev = false → isCreateEntry ev = false →
      isCacheSet ev = false → p ev = false := by
    intro ev h1 h2 h3
    cases h4 : p ev
    · rfl
    · rcases hk ev h4 with h | h | h <;> simp_all
  rw [Start_of_fetched env w w1 w2 sinks pods hs hp]
  have ht : (startTail env (sinksLoop env pods sinks w2).2).2.1.filter p = [] := by
    apply filter_eq_nil_of_forall
    intro ev hev
    rcases mem_startTail env _ ev hev with h | h | h | h | h <;> subst h <;>
      exact hno _ rfl rfl rfl
  simp only [List.filter_append, ht, List.append_nil]
  have h1 : [Event.retrieveSinks none, Event.getRunningPods none].filter p = [] := by
    apply filter_eq_nil_of_forall
    intro ev hev
    simp only [List.mem_cons, List.mem_singleton, List.not_mem_nil, or_false] at hev
    rcases hev with h | h <;> subst h <;> exact hno _ rfl rfl rfl
  have h2 : [Event.loadCancel].filter p = [] := by
    apply filter_eq_nil_of_forall
    intro ev hev
    simp only [List.mem_singleton] at hev
    subst hev
    exact hno _ rfl rfl rfl
  rw [h1, h2]
  simp

/-! ## The deploy step -/

/-- C2: after the registry answered `sinks` and the monitor listed `pods`,
every call of the deployer's CreateOtelCollector in the bootstrap pass is for
a sink of the list whose declared state is "active" and whose id no live
identifier contains, it passes the owner id and the id of that sink and the
entry that the ledger lookup made just before it returned for that id, and
for every id there are at most as many such calls as the list has occurrences
of sinks with that id that are declared "active" and are not live. -/
theorem createOtelCollector_only_for_targets {W : Type} (env : Env W) (w w1 w2 : W)
    (sinks : List SinkRes) (pods : List String)
    (hs : env.RetrieveSinks w = (.ok sinks, w1))
    (hp : env.GetRunningPods w1 = (.ok pods, w2)) :
    (∀ o i entry r, Event.createOtelCollector o i entry r ∈ (Start env w).2.1 →
      ∃ s ∈ sinks, s.State = "active" ∧ (∀ pod ∈ pods, Contains pod s.Id = false) ∧
        o = s.OwnerID ∧ i = s.Id ∧
        [Event.getDeploymentEntry s.Id entry none, Event.createOtelCollector o i entry r]
          <:+: (Start env w).2.1) ∧
    (∀ id, ((Start env w).2.1.filter (isCreateOtelFor id)).length ≤
      (deployTargets pods id sinks).length) := by
  constructor
  · intro o i entry r hev
    have hloop := mem_Start_loop env w w1 w2 sinks pods hs hp _ hev (Or.inl rfl)
    obtain ⟨s, hsm, w3, hbody, hinf⟩ := mem_sinksLoop env pods sinks w2 _ hloop
    have hinf2 := hinf.trans (loop_infix_Start env w w1 w2 sinks pods hs hp)
    rw [loopBody_eq] at hbody hinf2
    by_cases hr : (ledgerStep env s w3).1 = true
    · simp only [hr, if_true] at hbody hinf2
      rcases List.mem_append.1 hbody with h1 | h1
      · have := ledgerStep_no_createOtel env s w3 _ h1
        simp [isCreateOtel] at this
      · obtain ⟨hact, hdep, e1, w4, hg, heq, hshape⟩ :=
          deployStep_createOtel env pods s _ _ h1 rfl
        simp only [Event.createOtelCollector.injEq] at heq
        obtain ⟨ho, hi, he, hr1⟩ := heq
        refine ⟨s, hsm, hact, (isDeployed_false_iff pods s.Id).1 hdep, ho, hi, ?_⟩
        refine List.IsInfix.trans ?_ hinf2
        subst he
        refine ⟨(ledgerStep env s w3).2.1,
          List.drop 2 (deployStep env pods s (ledgerStep env s w3).2.2).1, ?_⟩
        rw [List.append_assoc]
        exact congrArg _ hshape.symm
    · simp only [hr] at hbody
      have := ledgerStep_no_createOtel env s w3 _ hbody
      simp [isCreateOtel] at this
  · intro id
    rw [Start_filter env w w1 w2 sinks pods hs hp (isCreateOtelFor id)
      (fun ev h => Or.inl (isCreateOtel_of_for id ev h))]
    exact sinksLoop_count env pods sinks w2 id

/-- C2 at three sinks, the second malformed and the third live: the deployer
creates for "s1" are at most the one eligible occurrence of "s1". -/
theorem createOtelCollector_only_for_targets_witness :
    (demoEnv [sinkS1, sinkS2, sinkS3] ["pod-s3-x"] demoConfigs).RetrieveSinks emptyWorld =
      (.ok [sinkS1, sinkS2, sinkS3], emptyWorld) ∧
    (demoEnv [sinkS1, sinkS2, sinkS3] ["pod-s3-x"] demoConfigs).GetRunningPods emptyWorld =
      (.ok ["pod-s3-x"], emptyWorld) ∧
    ((Start (demoEnv [sinkS1, sinkS2, sinkS3] ["pod-s3-x"] demoConfigs) emptyWorld).2.1.filter
        (isCreateOtelFor "s1")).length ≤
      (deployTargets ["pod-s3-x"] "s1" [sinkS1, sinkS2, sinkS3]).length :=
  ⟨rfl, rfl,
    (createOtelCollector_only_for_targets (demoEnv [sinkS1, sinkS2, sinkS3] ["pod-s3-x"] demoConfigs)
      emptyWorld emptyWorld emptyWorld [sinkS1, sinkS2, sinkS3] ["pod-s3-x"] rfl rfl).2 "s1"⟩

/-- The deploy step is reached exactly when the configuration decodes and
either the ledger lookup returns a value, or the ledger creation and the
status-cache update both succeed. -/
theorem ledgerStep_reaches_iff {W : Type} (env : Env W) (s : SinkRes) (w : W) :
    (ledgerStep env s w).1 = true ↔
      ∃ d, env.Unmarshal s.Config = .ok d ∧
        ((env.GetDeploymentEntryFromSinkId s.Id w).1.1 ≠ "" ∨
          ∃ w2, env.CreateDeploymentEntry s.Id d.Url d.User d.Password
              (env.GetDeploymentEntryFromSinkId s.Id w).2 = (none, w2) ∧
            (updateSinkCache env d w2).1 = none) := by
  unfold ledgerStep
  rcases hu : env.Unmarshal s.Config with e | d
  · simp
  · rcases hg : env.GetDeploymentEntryFromSinkId s.Id w with ⟨⟨val, verr⟩, w1⟩
    by_cases hval : val = ""
    · rcases hc : env.CreateDeploymentEntry s.Id d.Url d.User d.Password w1 with ⟨r, w2⟩
      cases r with
      | some e => simp [hval, hc]
      | none =>
        rcases hc2 : updateSinkCache env d w2 with ⟨r2, t, w3⟩
        cases r2 <;> simp [hval, hc, hc2]
    · simp [hval]

/-- C3: a sink returned by the registry whose declared state is "active",
whose id no live identifier contains and for which, when the pass reaches the
deploy step of that sink, the ledger lookup returns a record without an error,
gets a call of the deployer's CreateOtelCollector with its owner id, its id
and that record, right after the lookup. -/
theorem active_target_is_deployed {W : Type} (env : Env W) (w w1 w2 w3 w4 : W)
    (pre post : List SinkRes) (s : SinkRes) (pods : List String) (t : List Event)
    (entry : String)
    (hs : env.RetrieveSinks w = (.ok (pre ++ s :: post), w1))
    (hp : env.GetRunningPods w1 = (.ok pods, w2))
    (hstate : s.State = "active")
    (hlive : ∀ pod ∈ pods, Contains pod s.Id = false)
    (hreach : ledgerStep env s (sinksLoop env pods pre w2).2 = (true, t, w3))
    (hrec : env.GetDeploymentEntryFromSinkId s.Id w3 = ((entry, none), w4)) :
    [Event.getDeploymentEntry s.Id entry none,
      Event.createOtelCollector s.OwnerID s.Id entry
        (env.CreateOtelCollector s.OwnerID s.Id entry w4).1] <:+: (Start env w).2.1 := by
  refine List.IsInfix.trans ?_ (loop_infix_Start env w w1 w2 _ pods hs hp)
  rw [sinksLoop_occurrence]
  have hdep : isDeployed pods s.Id = false := (isDeployed_false_iff pods s.Id).2 hlive
  have hbody : ∃ l, (loopBody env pods s (sinksLoop env pods pre w2).2).1 =
      t ++ ([Event.getDeploymentEntry s.Id entry none,
        Event.createOtelCollector s.OwnerID s.Id entry
          (env.CreateOtelCollector s.OwnerID s.Id entry w4).1] ++ l) := by
    rw [loopBody_eq, hreach]
    simp only [if_true]
    unfold deployStep
    rcases ho : env.CreateOtelCollector s.OwnerID s.Id entry w4 with ⟨r, w5⟩
    cases r <;> simp [hstate, hdep, hrec, ho]
  obtain ⟨l, hl⟩ := hbody
  rw [hl]
  exact ⟨(sinksLoop env pods pre w2).1 ++ t,
    l ++ (sinksLoop env pods post (loopBody env pods s (sinksLoop env pods pre w2).2).2).1,
    by simp [List.append_assoc]⟩

/-- C3 at three sinks and no live deployment, for the third sink. -/
theorem active_target_is_deployed_witness :
    (demoEnv [sinkS1, sinkS2, sinkS3] [] demoConfigs).RetrieveSinks emptyWorld =
      (.ok ([sinkS1, sinkS2] ++ sinkS3 :: []), emptyWorld) ∧
    (demoEnv [sinkS1, sinkS2, sinkS3] [] demoConfigs).GetRunningPods emptyWorld =
      (.ok [], emptyWorld) ∧
    sinkS3.State = "active" ∧
    (∀ pod ∈ ([] : List String), Contains pod sinkS3.Id = false) ∧
    [Event.getDeploymentEntry "s3" "http://y,v,q" none,
      Event.createOtelCollector "o2" "s3" "http://y,v,q" none] <:+:
      (Start (demoEnv [sinkS1, sinkS2, sinkS3] [] demoConfigs) emptyWorld).2.1 :=
  ⟨rfl, rfl, rfl, by simp,
    active_target_is_deployed (demoEnv [sinkS1, sinkS2, sinkS3] [] demoConfigs)
      emptyWorld emptyWorld emptyWorld
      { ledger := [("s3", "http://y,v,q"), ("s1", "http://x,u,p")],
        cache := [("sinker_key-o2:s3", "o2,s3,http://y,v,q,unknown"),
          ("sinker_key-:", ",,http://x,u,p,unknown")],
        collectors := [("o1", "s1", "http://x,u,p")] }
      { ledger := [("s3", "http://y,v,q"), ("s1", "http://x,u,p")],
        cache := [("sinker_key-o2:s3", "o2,s3,http://y,v,q,unknown"),
          ("sinker_key-:", ",,http://x,u,p,unknown")],
        collectors := [("o1", "s1", "http://x,u,p")] }
      [sinkS1, sinkS2] [] sinkS3 [] _ "http://y,v,q" rfl rfl rfl (by simp) rfl rfl⟩

/-! ## Fatal failures at boot -/

/-- C4: when RetrieveSinks fails, `Start` returns that error after that one
call and nothing else but the cancellation of its load context; when
RetrieveSinks succeeds and GetRunningPods fails, `Start` returns that error
after one call of each and nothing else: no ledger lookup or creation, no
status-cache write, no deployer create, no start of a subscription or of the
monitor. -/
theorem Start_fetch_failure {W : Type} (env : Env W) (w : W) :
    (∀ e w1, env.RetrieveSinks w = (.error e, w1) →
      Start env w =
        (some e, [Event.retrieveSinks (some e), Event.loadCancel, Event.loadCancel], w1)) ∧
    (∀ sinks w1 e w2, env.RetrieveSinks w = (.ok sinks, w1) →
      env.GetRunningPods w1 = (.error e, w2) →
      Start env w =
        (some e, [Event.retrieveSinks none, Event.getRunningPods (some e),
          Event.loadCancel, Event.loadCancel], w2)) := by
  constructor
  · intro e w1 h
    simp [Start, h]
  · intro sinks w1 e w2 h1 h2
    simp [Start, h1, h2]

/-- C4 at an unreachable registry and at a failing listing of the pods. -/
theorem Start_fetch_failure_witness :
    (registryDownEnv.RetrieveSinks emptyWorld = (.error "registry unreachable", emptyWorld) ∧
      Start registryDownEnv emptyWorld =
        (some "registry unreachable",
          [Event.retrieveSinks (some "registry unreachable"), Event.loadCancel,
            Event.loadCancel], emptyWorld)) ∧
    (podsDownEnv.RetrieveSinks emptyWorld = (.ok [sinkS1], emptyWorld) ∧
      podsDownEnv.GetRunningPods emptyWorld = (.error "deployer unreachable", emptyWorld) ∧
      Start podsDownEnv emptyWorld =
        (some "deployer unreachable",
          [Event.retrieveSinks none, Event.getRunningPods (some "deployer unreachable"),
            Event.loadCancel, Event.loadCancel], emptyWorld)) :=
  ⟨⟨rfl, (Start_fetch_failure registryDownEnv emptyWorld).1 _ _ rfl⟩,
    ⟨rfl, rfl, (Start_fetch_failure podsDownEnv emptyWorld).2 _ _ _ _ rfl rfl⟩⟩

/-! ## Fault isolation -/

theorem loopBody_malformed {W : Type} (env : Env W) (pods : List String) (bad : SinkRes)
    (e : Error) (hbad : env.Unmarshal bad.Config = .error e) (w : W) :
    loopBody env pods bad w = ([Event.log "warn" "failed to unmarshal sink, skipping"], w) := by
  simp [loopBody, ledgerStep, hbad]

/-- C5: a sink whose configuration blob fails to decode costs one line of
the log and nothing else, in whatever world the pass reaches it: no ledger
call, no status-cache write, no deployer create, the world is left as it was;
so the pass over a list that holds it leaves the same world as, and makes
exactly the calls of, the pass over the list without it.  With three sinks of
which the second does not decode, the first and the third get their ledger
records and their deployer creates. -/
theorem malformed_sink_is_isolated {W : Type} (env : Env W) (pods : List String)
    (pre post : List SinkRes) (bad : SinkRes) (w : W) (e : Error)
    (hbad : env.Unmarshal bad.Config = .error e) :
    (∀ w1, loopBody env pods bad w1 =
      ([Event.log "warn" "failed to unmarshal sink, skipping"], w1)) ∧
    (sinksLoop env pods (pre ++ bad :: post) w).2 = (sinksLoop env pods (pre ++ post) w).2 ∧
    (sinksLoop env pods (pre ++ bad :: post) w).1.filter (fun ev => !isLog ev) =
      (sinksLoop env pods (pre ++ post) w).1.filter (fun ev => !isLog ev) ∧
    (Start (demoEnv [sinkS1, sinkS2, sinkS3] [] demoConfigs) emptyWorld).2.1.filter
        (fun ev => isCreateEntry ev || isCreateOtel ev) =
      [Event.createDeploymentEntry "s1" "http://x" "u" "p" none,
        Event.createOtelCollector "o1" "s1" "http://x,u,p" none,
        Event.createDeploymentEntry "s3" "http://y" "v" "q" none,
        Event.createOtelCollector "o2" "s3" "http://y,v,q" none] := by
  have hb := loopBody_malformed env pods bad e hbad
  refine ⟨hb, ?_, ?_, by decide⟩
  · simp [sinksLoop_append, sinksLoop_cons, hb]
  · simp [sinksLoop_append, sinksLoop_cons, hb, List.filter_append, List.filter, isLog]

/-- C5 at three sinks of which the second does not decode. -/
theorem malformed_sink_is_isolated_witness :
    (demoEnv [sinkS1, sinkS2, sinkS3] [] demoConfigs).Unmarshal sinkS2.Config =
      .error "invalid character" ∧
    (sinksLoop (demoEnv [sinkS1, sinkS2, sinkS3] [] demoConfigs) []
        ([sinkS1] ++ sinkS2 :: [sinkS3]) emptyWorld).2 =
      (sinksLoop (demoEnv [sinkS1, sinkS2, sinkS3] [] demoConfigs) []
        ([sinkS1] ++ [sinkS3]) emptyWorld).2 :=
  ⟨rfl, (malformed_sink_is_isolated (demoEnv [sinkS1, sinkS2, sinkS3] [] demoConfigs) []
    [sinkS1] [sinkS3] sinkS2 emptyWorld "invalid character" rfl).2.1⟩

/-! ## The ledger step -/

/-- C6: in the iteration of a sink, whatever the world `w0` in which the pass
reaches it, the ledger's CreateDeploymentEntry is called once when the
configuration decodes and the ledger lookup for the sink id returns the empty
value, with the sink id and the url, user and password decoded, and is not
called when the configuration does not decode or the lookup returns a value. -/
theorem createDeploymentEntry_check_then_create {W : Type} (env : Env W) (pods : List String)
    (pre post : List SinkRes) (s : SinkRes) (w : W) :
    (sinksLoop env pods (pre ++ s :: post) w).1 =
      (sinksLoop env pods pre w).1 ++ (loopBody env pods s (sinksLoop env pods pre w).2).1 ++
        (sinksLoop env pods post (loopBody env pods s (sinksLoop env pods pre w).2).2).1 ∧
    ∀ w0, (loopBody env pods s w0).1.filter isCreateEntry =
      match env.Unmarshal s.Config with
      | .error _ => []
      | .ok d =>
        if (env.GetDeploymentEntryFromSinkId s.Id w0).1.1 = "" then
          [Event.createDeploymentEntry s.Id d.Url d.User d.Password
            (env.CreateDeploymentEntry s.Id d.Url d.User d.Password
              (env.GetDeploymentEntryFromSinkId s.Id w0).2).1]
        else [] := by
  refine ⟨sinksLoop_occurrence env pods pre post s w, ?_⟩
  intro w0
  have hdep : ∀ w1, (deployStep env pods s w1).1.filter isCreateEntry = [] := by
    intro w1
    unfold deployStep
    by_cases hc : s.State = "active" ∧ isDeployed pods s.Id = false
    · rcases hg : env.GetDeploymentEntryFromSinkId s.Id w1 with ⟨⟨val, verr⟩, w2⟩
      cases verr with
      | some e => simp [hc, List.filter, isCreateEntry]
      | none =>
        rcases ho : env.CreateOtelCollector s.OwnerID s.Id val w2 with ⟨r, w3⟩
        cases r <;> simp [hc, ho, List.filter, isCreateEntry]
    · simp [hc]
  have hcache : ∀ d w1, (updateSinkCache env d w1).2.1.filter isCreateEntry = [] := by
    intro d w1
    apply filter_eq_nil_of_forall
    intro ev hev
    obtain ⟨_, _, h2⟩ := mem_updateSinkCache env d w1 ev hev
    simp [h2, isCreateEntry]
  rw [loopBody_eq]
  rcases hu : env.Unmarshal s.Config with e | d
  · simp [ledgerStep, hu, List.filter, isCreateEntry]
  · rcases hg : env.GetDeploymentEntryFromSinkId s.Id w0 with ⟨⟨val, verr⟩, w1⟩
    by_cases hval : val = ""
    · rcases hc : env.CreateDeploymentEntry s.Id d.Url d.User d.Password w1 with ⟨r, w2⟩
      cases r with
      | some e => simp [ledgerStep, hu, hg, hval, hc, List.filter, isCreateEntry]
      | none =>
        rcases hc2 : updateSinkCache env d w2 with ⟨r2, t, w3⟩
        have ht : t.filter isCreateEntry = [] := by
          have := hcache d w2
          rwa [hc2] at this
        cases r2 <;>
          simp [ledgerStep, hu, hg, hval, hc, hc2, List.filter, isCreateEntry, hdep, ht,
            List.filter_append]
    · simp [ledgerStep, hu, hg, hval, List.filter, isCreateEntry, hdep, List.filter_append]

/-! ## The status cache -/

/-- An event of the loop in a trace of `Start` tells that both fetches
succeeded. -/
theorem Start_mem_fetched {W : Type} (env : Env W) (w : W) (ev : Event)
    (h : ev ∈ (Start env w).2.1)
    (hk : isCreateOtel ev = true ∨ isCreateEntry ev = true ∨ isCacheSet ev = true) :
    ∃ sinks w1 pods w2, env.RetrieveSinks w = (.ok sinks, w1) ∧
      env.GetRunningPods w1 = (.ok pods, w2) ∧ ev ∈ (sinksLoop env pods sinks w2).1 := by
  rcases hs : env.RetrieveSinks w with ⟨r, w1⟩
  cases r with
  | error e =>
    simp [Start, hs] at h
    rcases h with h | h <;> subst h <;> simp [isCreateOtel, isCreateEntry, isCacheSet] at hk
  | ok sinks =>
    rcases hp : env.GetRunningPods w1 with ⟨r2, w2⟩
    cases r2 with
    | error e =>
      simp [Start, hs, hp] at h
      rcases h with h | h | h <;> subst h <;>
        simp [isCreateOtel, isCreateEntry, isCacheSet] at hk
    | ok pods =>
      exact ⟨sinks, w1, pods, w2, rfl, hp, mem_Start_loop env w w1 w2 sinks pods hs hp ev h hk⟩

theorem deployStep_no_cacheSet {W : Type} (env : Env W) (pods : List String) (s : SinkRes)
    (w : W) (ev : Event) (h : ev ∈ (deployStep env pods s w).1) : isCacheSet ev = false := by
  unfold deployStep at h
  by_cases hc : s.State = "active" ∧ isDeployed pods s.Id = false
  · rcases hg : env.GetDeploymentEntryFromSinkId s.Id w with ⟨⟨val, verr⟩, w1⟩
    cases verr with
    | some e =>
      simp [hc, hg] at h
      rcases h with h | h <;> simp [h, isCacheSet]
    | none =>
      rcases ho : env.CreateOtelCollector s.OwnerID s.Id val w1 with ⟨r, w2⟩
      cases r <;> simp [hc, hg, ho] at h <;> rcases h with h | h | h <;> simp [h, isCacheSet]
  · simp [hc] at h

/-- A status-cache write of an iteration comes from `updateSinkCache` on the
decoded configuration of the sink. -/
theorem mem_loopBody_cacheSet {W : Type} (env : Env W) (pods : List String) (s : SinkRes)
    (w : W) (ev : Event) (h : ev ∈ (loopBody env pods s w).1) (hk : isCacheSet ev = true) :
    ∃ d w2, env.Unmarshal s.Config = .ok d ∧ ev ∈ (updateSinkCache env d w2).2.1 := by
  have hl : ev ∈ (ledgerStep env s w).2.1 := by
    rw [loopBody_eq] at h
    by_cases hr : (ledgerStep env s w).1 = true
    · simp only [hr, if_true] at h
      rcases List.mem_append.1 h with h1 | h1
      · exact h1
      · rw [deployStep_no_cacheSet env pods s _ ev h1] at hk
        cases hk
    · simpa [hr] using h
  rcases mem_ledgerStep env s w ev hl with h1 | ⟨_, _, h1⟩ | ⟨d, hd, _, ⟨_, h1⟩ | ⟨w2, _, h1⟩⟩
  · cases ev <;> simp_all [isLog, isCacheSet]
  · simp [h1, isCacheSet] at hk
  · simp [h1, isCacheSet] at hk
  · exact ⟨d, w2, hd, h1⟩

/-- C7: every value that the bootstrap pass writes to the status cache is
the serialisation of a snapshot whose state is "unknown" and whose other
fields are those of the decoded configuration of a sink of the registry,
whatever the declared state of the sink and the state in its configuration. -/
theorem cache_value_state_unknown {W : Type} (env : Env W) (w : W) (key value : String)
    (r : Option Error) (h : Event.cacheSet key value r ∈ (Start env w).2.1) :
    ∃ sinks w1, env.RetrieveSinks w = (.ok sinks, w1) ∧ ∃ s ∈ sinks, ∃ d snapshot,
      env.Unmarshal s.Config = .ok d ∧ env.Marshal snapshot = .ok value ∧
      snapshot.State = "unknown" ∧ snapshot.SinkID = d.SinkID ∧
      snapshot.OwnerID = d.OwnerID ∧ snapshot.Url = d.Url ∧ snapshot.User = d.User ∧
      snapshot.Password = d.Password := by
  obtain ⟨sinks, w1, pods, w2, hs, _, hloop⟩ :=
    Start_mem_fetched env w _ h (Or.inr (Or.inr rfl))
  obtain ⟨s, hsm, w3, hbody, _⟩ := mem_sinksLoop env pods sinks w2 _ hloop
  obtain ⟨d, w4, hd, hc⟩ := mem_loopBody_cacheSet env pods s w3 _ hbody rfl
  obtain ⟨bytes, hm, heq⟩ := mem_updateSinkCache env d w4 _ hc
  simp only [Event.cacheSet.injEq] at heq
  refine ⟨sinks, w1, hs, s, hsm, d, { d with State := Unknown }, hd, ?_, rfl, rfl, rfl, rfl,
    rfl, rfl⟩
  rw [hm, heq.2.1]

/-- C7 at the status-cache write of the third of three sinks, whose
configuration carries the state "active". -/
theorem cache_value_state_unknown_witness :
    Event.cacheSet "sinker_key-o2:s3" "o2,s3,http://y,v,q,unknown" none ∈
      (Start (demoEnv [sinkS1, sinkS2, sinkS3] [] demoConfigs) emptyWorld).2.1 ∧
    ∃ sinks w1, (demoEnv [sinkS1, sinkS2, sinkS3] [] demoConfigs).RetrieveSinks emptyWorld =
        (.ok sinks, w1) ∧ ∃ s ∈ sinks, ∃ d snapshot,
      (demoEnv [sinkS1, sinkS2, sinkS3] [] demoConfigs).Unmarshal s.Config = .ok d ∧
      (demoEnv [sinkS1, sinkS2, sinkS3] [] demoConfigs).Marshal snapshot =
        .ok "o2,s3,http://y,v,q,unknown" ∧
      snapshot.State = "unknown" ∧ snapshot.SinkID = d.SinkID ∧
      snapshot.OwnerID = d.OwnerID ∧ snapshot.Url = d.Url ∧ snapshot.User = d.User ∧
      snapshot.Password = d.Password :=
  ⟨by decide,
    cache_value_state_unknown (demoEnv [sinkS1, sinkS2, sinkS3] [] demoConfigs) emptyWorld
      "sinker_key-o2:s3" "o2,s3,http://y,v,q,unknown" none (by decide)⟩

/-- The key of every status-cache write of `Start` is built from the
`OwnerID` and the `SinkID` of the decoded configuration of a sink of the
registry, not from the ids the registry returned for it. -/
theorem cacheSet_key_of_decoded {W : Type} (env : Env W) (w : W) (key value : String)
    (r : Option Error) (h : Event.cacheSet key value r ∈ (Start env w).2.1) :
    ∃ sinks w1, env.RetrieveSinks w = (.ok sinks, w1) ∧ ∃ s ∈ sinks, ∃ d,
      env.Unmarshal s.Config = .ok d ∧
      key = "sinker_key-" ++ d.OwnerID ++ ":" ++ d.SinkID := by
  obtain ⟨sinks, w1, pods, w2, hs, _, hloop⟩ :=
    Start_mem_fetched env w _ h (Or.inr (Or.inr rfl))
  obtain ⟨s, hsm, w3, hbody, _⟩ := mem_sinksLoop env pods sinks w2 _ hloop
  obtain ⟨d, w4, hd, hc⟩ := mem_loopBody_cacheSet env pods s w3 _ hbody rfl
  obtain ⟨bytes, hm, heq⟩ := mem_updateSinkCache env d w4 _ hc
  simp only [Event.cacheSet.injEq] at heq
  exact ⟨sinks, w1, hs, s, hsm, d, hd, heq.1⟩

/-- C8: for the registry sink with id "s1" and owner "o1", declared "active",
whose configuration holds a url, a user and a password, and no live
deployment, `Start` writes one status-cache entry, under the key
"sinker_key-:" built from the empty ids of the decoded configuration, and
writes none under "sinker_key-o1:s1". -/
theorem cache_key_ignores_registry_ids :
    (Start (demoEnv [sinkS1] [] demoConfigs) emptyWorld).2.1.filter isCacheSet =
      [Event.cacheSet "sinker_key-:" ",,http://x,u,p,unknown" none] ∧
    (Start (demoEnv [sinkS1] [] demoConfigs) emptyWorld).2.2.cache =
      [("sinker_key-:", ",,http://x,u,p,unknown")] ∧
    "sinker_key-" ++ sinkS1.OwnerID ++ ":" ++ sinkS1.Id = "sinker_key-o1:s1" ∧
    ∀ value r, Event.cacheSet "sinker_key-o1:s1" value r ∉
      (Start (demoEnv [sinkS1] [] demoConfigs) emptyWorld).2.1 := by
  refine ⟨by decide, by decide, by decide, ?_⟩
  intro value r h
  have h1 : Event.cacheSet "sinker_key-o1:s1" value r ∈
      (Start (demoEnv [sinkS1] [] demoConfigs) emptyWorld).2.1.filter isCacheSet :=
    List.mem_filter.2 ⟨h, rfl⟩
  have h2 : (Start (demoEnv [sinkS1] [] demoConfigs) emptyWorld).2.1.filter isCacheSet =
      [Event.cacheSet "sinker_key-:" ",,http://x,u,p,unknown" none] := by decide
  rw [h2] at h1
  simp only [List.mem_singleton, Event.cacheSet.injEq] at h1
  exact absurd h1.1 (by decide)

/-- C9, as stated, fails: the configuration of the sink "s1" decodes, a
ledger record for it exists already, and the pass writes no status-cache
entry. -/
theorem cache_not_written_when_record_exists :
    (demoEnv [sinkS1] [] demoConfigs).Unmarshal sinkS1.Config = .ok dataS1 ∧
    (Start (demoEnv [sinkS1] [] demoConfigs)
      { ledger := [("s1", "rec")], cache := [], collectors := [] }).2.1.filter isCacheSet = [] ∧
    (Start (demoEnv [sinkS1] [] demoConfigs)
      { ledger := [("s1", "rec")], cache := [], collectors := [] }).2.2.cache = [] :=
  ⟨rfl, by decide, by decide⟩

/-- C9, amended: the status-cache entry of a sink is written inside the
ledger step, not independently of it.  In the iteration of a sink whose
configuration decodes, the pass writes the status-cache entry exactly when the
ledger lookup returned the empty value, the ledger creation succeeded and the
snapshot serialised; when the lookup returned a record, or the configuration
does not decode, it writes none. -/
theorem cacheSet_only_after_ledger_creation {W : Type} (env : Env W) (pods : List String)
    (s : SinkRes) (w0 : W) :
    (loopBody env pods s w0).1.filter isCacheSet =
      match env.Unmarshal s.Config with
      | .error _ => []
      | .ok d =>
        if (env.GetDeploymentEntryFromSinkId s.Id w0).1.1 = "" then
          match env.CreateDeploymentEntry s.Id d.Url d.User d.Password
              (env.GetDeploymentEntryFromSinkId s.Id w0).2 with
          | (some _, _) => []
          | (none, w2) =>
            match env.Marshal { d with State := Unknown } with
            | .error _ => []
            | .ok bytes =>
              [Event.cacheSet ("sinker_key-" ++ d.OwnerID ++ ":" ++ d.SinkID) bytes
                (env.Set ("sinker_key-" ++ d.OwnerID ++ ":" ++ d.SinkID) bytes w2).1]
        else [] := by
  have hdep : ∀ w1, (deployStep env pods s w1).1.filter isCacheSet = [] := fun w1 =>
    filter_eq_nil_of_forall _ _ (fun ev hev => deployStep_no_cacheSet env pods s w1 ev hev)
  have hk : ("sinker_key" ++ "-" : String) = "sinker_key-" := by decide
  have hcache : ∀ d w2, (updateSinkCache env d w2).2.1.filter isCacheSet =
      match env.Marshal { d with State := Unknown } with
      | .error _ => []
      | .ok bytes =>
        [Event.cacheSet ("sinker_key-" ++ d.OwnerID ++ ":" ++ d.SinkID) bytes
          (env.Set ("sinker_key-" ++ d.OwnerID ++ ":" ++ d.SinkID) bytes w2).1] := by
    intro d w2
    unfold updateSinkCache
    simp only [hk]
    rcases hm : env.Marshal { d with State := Unknown } with e | bytes
    · simp
    · rcases hset : env.Set ("sinker_key-" ++ d.OwnerID ++ ":" ++ d.SinkID) bytes w2
        with ⟨r, w3⟩
      cases r <;> simp [hset, List.filter, isCacheSet]
  rw [loopBody_eq]
  rcases hu : env.Unmarshal s.Config with e | d
  · simp [ledgerStep, hu, List.filter, isCacheSet]
  · rcases hg : env.GetDeploymentEntryFromSinkId s.Id w0 with ⟨⟨val, verr⟩, w1⟩
    by_cases hval : val = ""
    · rcases hc : env.CreateDeploymentEntry s.Id d.Url d.User d.Password w1 with ⟨r, w2⟩
      cases r with
      | some e => simp [ledgerStep, hu, hg, hval, hc, List.filter, isCacheSet]
      | none =>
        have ht := hcache d w2
        rcases hc2 : updateSinkCache env d w2 with ⟨r2, t, w3⟩
        rw [hc2] at ht
        cases r2 <;>
          simp [ledgerStep, hu, hg, hval, hc, hc2, List.filter, isCacheSet, hdep, ht,
            List.filter_append]
    · simp [ledgerStep, hu, hg, hval, List.filter, isCacheSet, hdep, List.filter_append]

/-! ## The result of `Start` -/

/-- C10: `Start` returns the error of RetrieveSinks when it fails, else the
error of GetRunningPods when it fails, else what monitor.Start returns, a
failure or nil: nothing that happens in the loop over the sinks enters the
result.  After two successful fetches and the loop, whatever the sinks and
whatever failed for them, both subscriptions are spawned and the monitor is
started; when the monitor fails, the root cancel function is called before
`Start` returns. -/
theorem Start_result {W : Type} (env : Env W) (w : W) :
    ((Start env w).1 =
      match env.RetrieveSinks w with
      | (.error e, _) => some e
      | (.ok sinks, w1) =>
        match env.GetRunningPods w1 with
        | (.error e, _) => some e
        | (.ok pods, w2) => (env.MonitorStart (sinksLoop env pods sinks w2).2).1) ∧
    (∀ sinks w1 pods w2, env.RetrieveSinks w = (.ok sinks, w1) →
      env.GetRunningPods w1 = (.ok pods, w2) →
      (Start env w).2.1 =
        [Event.retrieveSinks none, Event.getRunningPods none] ++ (sinksLoop env pods sinks w2).1
          ++
          (match (env.MonitorStart (sinksLoop env pods sinks w2).2).1 with
          | some e =>
            [Event.goSubscribeSinks, Event.goSubscribeSinker, Event.monitorStart (some e),
              Event.log "error" "error during monitor routine start", Event.cancel,
              Event.loadCancel]
          | none =>
            [Event.goSubscribeSinks, Event.goSubscribeSinker, Event.monitorStart none,
              Event.loadCancel])) := by
  constructor
  · rcases hs : env.RetrieveSinks w with ⟨r, w1⟩
    cases r with
    | error e => simp [Start, hs]
    | ok sinks =>
      rcases hp : env.GetRunningPods w1 with ⟨r2, w2⟩
      cases r2 with
      | error e => simp [Start, hs, hp]
      | ok pods =>
        rw [Start_of_fetched env w w1 w2 sinks pods hs hp]
        simp only [startTail]
        rcases hm : env.MonitorStart (sinksLoop env pods sinks w2).2 with ⟨r3, w3⟩
        cases r3 <;> simp [hp, hm]
  · intro sinks w1 pods w2 hs hp
    rw [Start_of_fetched env w w1 w2 sinks pods hs hp]
    simp only [startTail]
    rcases hm : env.MonitorStart (sinksLoop env pods sinks w2).2 with ⟨r3, w3⟩
    cases r3 <;> simp

/-- C10 at a registry whose only sink is malformed and a monitor that fails
to start. -/
theorem Start_result_witness :
    monitorDownEnv.RetrieveSinks emptyWorld = (.ok [sinkS2], emptyWorld) ∧
    monitorDownEnv.GetRunningPods emptyWorld = (.ok [], emptyWorld) ∧
    (Start monitorDownEnv emptyWorld).1 = some "monitor failed" ∧
    (Start monitorDownEnv emptyWorld).2.1 =
      [Event.retrieveSinks none, Event.getRunningPods none] ++
        (sinksLoop monitorDownEnv [] [sinkS2] emptyWorld).1 ++
        (match (monitorDownEnv.MonitorStart
            (sinksLoop monitorDownEnv [] [sinkS2] emptyWorld).2).1 with
        | some e =>
          [Event.goSubscribeSinks, Event.goSubscribeSinker, Event.monitorStart (some e),
            Event.log "error" "error during monitor routine start", Event.cancel,
            Event.loadCancel]
        | none =>
          [Event.goSubscribeSinks, Event.goSubscribeSinker, Event.monitorStart none,
            Event.loadCancel]) :=
  ⟨rfl, rfl, by decide,
    (Start_result monitorDownEnv emptyWorld).2 [sinkS2] emptyWorld [] emptyWorld rfl rfl⟩

end Maestro

namespace Consumer

open Go

/-! ## Field decoding -/

/-- C15: `read` returns the value stored under the key when it is a string
and the default when the key is missing or holds something else; the decoders
of the remove and disconnect events are total and their fields "id",
"chan_id" and "thing_id" are the strings stored under these keys, and the
empty string when the key is missing or holds no string. -/
theorem read_permissive (event : EventMap) (key def_ : String) :
    (∀ v, event.lookup key = some (.str v) → read event key def_ = v) ∧
    ((∀ v, event.lookup key ≠ some (.str v)) → read event key def_ = def_) ∧
    (decodeRemoveThing event).id = read event "id" "" ∧
    (decodeRemoveChannel event).id = read event "id" "" ∧
    (decodeDisconnectThing event).channelID = read event "chan_id" "" ∧
    (decodeDisconnectThing event).thingID = read event "thing_id" "" ∧
    ((∀ v, event.lookup "id" ≠ some (.str v)) →
      (decodeRemoveThing event).id = "" ∧ (decodeRemoveChannel event).id = "") ∧
    ((∀ v, event.lookup "chan_id" ≠ some (.str v)) →
      (decodeDisconnectThing event).channelID = "") ∧
    ((∀ v, event.lookup "thing_id" ≠ some (.str v)) →
      (decodeDisconnectThing event).thingID = "") := by
  have hmiss : ∀ (k d : String), (∀ v, event.lookup k ≠ some (.str v)) → read event k d = d := by
    intro k d h
    unfold read
    split
    · rename_i val hv
      exact absurd hv (h val)
    · rfl
  refine ⟨?_, hmiss key def_, rfl, rfl, rfl, rfl, ?_, ?_, ?_⟩
  · intro v hv
    simp [read, hv]
  · intro h
    exact ⟨hmiss "id" "" h, hmiss "id" "" h⟩
  · intro h
    exact hmiss "chan_id" "" h
  · intro h
    exact hmiss "thing_id" "" h

/-- C15 at an event whose "id" is a number and whose "chan_id" is a string. -/
theorem read_permissive_witness :
    read [("id", Value.num 7), ("chan_id", Value.str "c1")] "chan_id" "none" = "c1" ∧
    read [("id", Value.num 7), ("chan_id", Value.str "c1")] "id" "none" = "none" ∧
    (decodeRemoveThing [("id", Value.num 7), ("chan_id", Value.str "c1")]).id = "" ∧
    (decodeDisconnectThing [("id", Value.num 7), ("chan_id", Value.str "c1")]).thingID = "" :=
  ⟨(read_permissive [("id", Value.num 7), ("chan_id", Value.str "c1")] "chan_id" "none").1
      "c1" rfl,
    (read_permissive [("id", Value.num 7), ("chan_id", Value.str "c1")] "id" "none").2.1
      (fun v h => by cases h),
    ((read_permissive [("id", Value.num 7), ("chan_id", Value.str "c1")] "id" "").2.2.2.2.2.2.1
      (fun v h => by cases h)).1,
    (read_permissive [("id", Value.num 7), ("chan_id", Value.str "c1")] "id" "").2.2.2.2.2.2.2.2
      (fun v h => by cases h)⟩

/-- C18: whatever the event holds under "metadata", also a well-formed JSON
object with fields, and whatever the syntax check of the decoder answers,
`decodeUpdateChannel` returns the empty map as metadata, because the decode
into a map passed by value fails always; its id and its name are the strings
of the fields "id" and "name", or the empty string. -/
theorem decodeUpdateChannel_metadata_empty (valid : String → Bool) (event : EventMap) :
    (decodeUpdateChannel valid event).metadata = some [] ∧
    (∀ data, jsonUnmarshalByValue valid data ≠ none) ∧
    (decodeUpdateChannel valid event).id = read event "id" "" ∧
    (decodeUpdateChannel valid event).name = read event "name" "" ∧
    (decodeUpdateChannel (fun _ => true)
      [("id", Value.str "c1"), ("name", Value.str "chan"),
        ("metadata", Value.str "\x7b\"tenant\":\"t1\"\x7d")]).metadata = some [] := by
  have h : ∀ data, jsonUnmarshalByValue valid data ≠ none := by
    intro data
    unfold jsonUnmarshalByValue
    split <;> simp
  refine ⟨?_, h, rfl, rfl, rfl⟩
  unfold decodeUpdateChannel
  simp only
  split
  · rfl
  · rename_i hn
    exact absurd hn (h _)

/-! ## Removal -/

/-- C14, as stated, fails: a ledger that holds a record for the sink "s1"
still holds it after the "thing.remove" event of "s1" is handled, once or
twice. -/
theorem remove_event_keeps_record :
    (handleRemoveThing (decodeRemoveThing (removeMsg "1-0" "s1").Values)
      [("s1", "rec")]).2.lookup "s1" = some "rec" ∧
    (handleRemoveThing (decodeRemoveThing (removeMsg "1-0" "s1").Values)
      (handleRemoveThing (decodeRemoveThing (removeMsg "1-0" "s1").Values)
        [("s1", "rec")]).2).2.lookup "s1" = some "rec" := by
  decide

/-- C14, amended: for every state of the ledger and every event, handling
the event twice leaves the ledger identical to handling it once, and in both
cases identical to the ledger before: `handleRemoveThing` returns nil and
changes nothing. -/
theorem handleRemoveThing_replay {W : Type} (event : EventMap) (w : W) :
    (handleRemoveThing (decodeRemoveThing event)
      (handleRemoveThing (decodeRemoveThing event) w).2).2 =
      (handleRemoveThing (decodeRemoveThing event) w).2 ∧
    handleRemoveThing (decodeRemoveThing event) w = (none, w) :=
  ⟨rfl, rfl⟩

end Consumer

namespace Consumer

open Go

/-! ## The consumer group -/

theorem readLoop_succ_head {W : Type} (client : Client W) (esconsumer : String) (fuel : Nat)
    (w : W) :
    ∃ r t, (readLoop client esconsumer (fuel + 1) w).1 =
      CEvent.xReadGroup (readArgs esconsumer) r :: t := by
  unfold readLoop
  rcases hr : client.XReadGroup (readArgs esconsumer) w with ⟨r, w1⟩
  cases r with
  | error e => exact ⟨some e, _, rfl⟩
  | ok streams =>
    cases streams with
    | nil => exact ⟨none, _, rfl⟩
    | cons s0 tl => exact ⟨none, _, rfl⟩

/-- C16: `Subscribe` returns the error `e` exactly when the creation of the
group fails with `e` and the message of `e` is not "BUSYGROUP Consumer Group
name already exists", and then it has made no read; when the creation
succeeds or fails with that message, it enters the read loop, whose first
call is a read of the group.  The group is created on the stream
"mainflux.things" under the name "orb.prom-sink" at the position "$". -/
theorem Subscribe_group_setup {W : Type} (client : Client W) (esconsumer subject : String)
    (fuel : Nat) (w : W) :
    (∀ e, (Subscribe client esconsumer subject fuel w).1 = some e ↔
      ((client.XGroupCreateMkStream "mainflux.things" "orb.prom-sink" "$" w).1 = some e ∧
        e ≠ "BUSYGROUP Consumer Group name already exists")) ∧
    (Subscribe client esconsumer subject fuel w).2.1 =
      CEvent.xGroupCreateMkStream "mainflux.things" "orb.prom-sink" "$"
          (client.XGroupCreateMkStream "mainflux.things" "orb.prom-sink" "$" w).1 ::
        (match (client.XGroupCreateMkStream "mainflux.things" "orb.prom-sink" "$" w).1 with
        | some err =>
          if err ≠ "BUSYGROUP Consumer Group name already exists" then []
          else (readLoop client esconsumer fuel
            (client.XGroupCreateMkStream "mainflux.things" "orb.prom-sink" "$" w).2).1
        | none => (readLoop client esconsumer fuel
            (client.XGroupCreateMkStream "mainflux.things" "orb.prom-sink" "$" w).2).1) ∧
    (∀ w1, ∃ r t, (readLoop client esconsumer (fuel + 1) w1).1 =
      CEvent.xReadGroup (readArgs esconsumer) r :: t) := by
  have hs : stream = "mainflux.things" := rfl
  have hg : group = "orb.prom-sink" := rfl
  have hx : groupExists = "BUSYGROUP Consumer Group name already exists" := rfl
  refine ⟨?_, ?_, fun w1 => readLoop_succ_head client esconsumer fuel w1⟩
  · intro e
    unfold Subscribe
    rw [hs, hg, hx]
    rcases hc : client.XGroupCreateMkStream "mainflux.things" "orb.prom-sink" "$" w
      with ⟨r, w1⟩
    cases r with
    | none => simp
    | some err =>
      by_cases he : err = "BUSYGROUP Consumer Group name already exists"
      · simp [he]
        intro h1
        exact h1.symm
      · simp [he]
        rintro rfl
        exact he
  · unfold Subscribe
    rw [hs, hg, hx]
    rcases hc : client.XGroupCreateMkStream "mainflux.things" "orb.prom-sink" "$" w
      with ⟨r, w1⟩
    cases r with
    | none => simp
    | some err =>
      by_cases he : err = "BUSYGROUP Consumer Group name already exists"
      · simp [he]
      · simp [he]

/-! ## Dispatch on the operation -/

theorem thingRemove_eq : thingRemove = "thing.remove" := by decide

theorem messageStepWith_other {W : Type} (client : Client W)
    (handle : removeEvent → W → Option Error × W) (msg : XMessage) (w : W)
    (h : isThingRemove msg = false) :
    messageStepWith client handle msg w =
      (true, [CEvent.printf msg.Values, CEvent.xAck stream group msg.ID],
        client.XAck stream group msg.ID w) := by
  unfold isThingRemove at h
  unfold messageStepWith
  rcases hl : msg.Values.lookup "operation" with _ | v
  · simp [hl]
  · cases v with
    | str op =>
      rw [hl] at h
      simp only [beq_eq_false_iff_ne, ne_eq] at h
      simp [hl, h]
    | _ => simp [hl]

theorem messageStepWith_remove {W : Type} (client : Client W)
    (handle : removeEvent → W → Option Error × W) (msg : XMessage) (w : W)
    (h : isThingRemove msg = true) :
    messageStepWith client handle msg w =
      match handle (decodeRemoveThing msg.Values) w with
      | (some e, w1) =>
        (false, [CEvent.printf msg.Values,
          CEvent.handleRemoveThing (decodeRemoveThing msg.Values) (some e),
          CEvent.warn ("Failed to handle event sourcing: " ++ e)], w1)
      | (none, w1) =>
        (true, [CEvent.printf msg.Values,
          CEvent.handleRemoveThing (decodeRemoveThing msg.Values) none,
          CEvent.xAck stream group msg.ID], client.XAck stream group msg.ID w1) := by
  unfold isThingRemove at h
  unfold messageStepWith
  rcases hl : msg.Values.lookup "operation" with _ | v
  · rw [hl] at h
    cases h
  · cases v with
    | str op =>
      rw [hl] at h
      simp only [beq_iff_eq] at h
      rcases hh : handle (decodeRemoveThing msg.Values) w with ⟨r, w1⟩
      cases r <;> simp [hl, h, hh]
    | _ =>
      rw [hl] at h
      cases h

theorem isThingRemove_of_not_recognized (msg : XMessage) (h : recognized msg = false) :
    isThingRemove msg = false := by
  unfold recognized at h
  unfold isThingRemove
  rcases hl : msg.Values.lookup "operation" with _ | v
  · rfl
  · cases v with
    | str op =>
      rw [hl] at h
      simp only [Bool.or_eq_false_iff] at h
      exact h.1.1.1
    | _ => rfl

/-- One step of the batch loop on a message whose "operation" field holds
none of the operation values: an acknowledgement, no handler call, and the
loop goes on with the rest of the batch. -/
theorem unknown_operation_step {W : Type} (client : Client W)
    (handle : removeEvent → W → Option Error × W) (msg : XMessage) (rest : List XMessage)
    (w : W) (h : recognized msg = false) :
    messageStep client msg w =
      (true, [CEvent.printf msg.Values, CEvent.xAck stream group msg.ID],
        client.XAck stream group msg.ID w) ∧
    handlerCalls (messageStepWith client handle msg w).2.1 = [] ∧
    ackedIds (messageStepWith client handle msg w).2.1 = [msg.ID] ∧
    messagesLoopWith client handle (msg :: rest) w =
      ([CEvent.printf msg.Values, CEvent.xAck stream group msg.ID] ++
          (messagesLoopWith client handle rest (client.XAck stream group msg.ID w)).1,
        (messagesLoopWith client handle rest (client.XAck stream group msg.ID w)).2) ∧
    messagesLoop client (msg :: rest) w =
      ([CEvent.printf msg.Values, CEvent.xAck stream group msg.ID] ++
          (messagesLoop client rest (client.XAck stream group msg.ID w)).1,
        (messagesLoop client rest (client.XAck stream group msg.ID w)).2) := by
  have h1 := isThingRemove_of_not_recognized msg h
  have hstep := messageStepWith_other client handle msg w h1
  have hloop : ∀ hd : removeEvent → W → Option Error × W,
      messagesLoopWith client hd (msg :: rest) w =
        ([CEvent.printf msg.Values, CEvent.xAck stream group msg.ID] ++
            (messagesLoopWith client hd rest (client.XAck stream group msg.ID w)).1,
          (messagesLoopWith client hd rest (client.XAck stream group msg.ID w)).2) := by
    intro hd
    simp [messagesLoopWith, messageStepWith_other client hd msg w h1]
  refine ⟨messageStepWith_other client handleRemoveThing msg w h1, ?_, ?_, hloop handle, ?_⟩
  · rw [hstep]; rfl
  · rw [hstep]; rfl
  · exact hloop handleRemoveThing

end Consumer

namespace Consumer

open Go

/-- C13, as stated, fails: a message that carries "channel.update",
"channel.remove" or "thing.disconnect" is acknowledged and no handler is
called for it, in one step of the batch loop and in a run of `Subscribe` that
reads a batch of three such messages. -/
theorem other_operations_have_no_handler :
    handlerCalls (Subscribe (demoClient none) "c" "orb.sinks" 2
      { pending := [[opMsg "1-0" "channel.update", opMsg "2-0" "channel.remove",
          opMsg "3-0" "thing.disconnect"]], acked := [] }).2.1 = [] ∧
    ackedIds (Subscribe (demoClient none) "c" "orb.sinks" 2
      { pending := [[opMsg "1-0" "channel.update", opMsg "2-0" "channel.remove",
          opMsg "3-0" "thing.disconnect"]], acked := [] }).2.1 = ["1-0", "2-0", "3-0"] ∧
    handlerCalls (messageStep (demoClient none) (opMsg "1-0" "channel.update")
      { pending := [], acked := [] }).2.1 = [] ∧
    ackedIds (messageStep (demoClient none) (opMsg "1-0" "channel.update")
      { pending := [], acked := [] }).2.1 = ["1-0"] ∧
    handlerCalls (messageStep (demoClient none) (opMsg "2-0" "channel.remove")
      { pending := [], acked := [] }).2.1 = [] ∧
    handlerCalls (messageStep (demoClient none) (opMsg "3-0" "thing.disconnect")
      { pending := [], acked := [] }).2.1 = [] := by
  decide

/-- One step of the batch loop: a message that carries "thing.remove" is
decoded, handled and then acknowledged; a message that carries
"thing.disconnect", "channel.update" or "channel.remove" is acknowledged with
no decoding and no handler call. -/
theorem messageStep_dispatch {W : Type} (client : Client W) (msg : XMessage) (w : W) :
    (msg.Values.lookup "operation" = some (.str "thing.remove") →
      messageStep client msg w =
        (true, [CEvent.printf msg.Values,
          CEvent.handleRemoveThing (decodeRemoveThing msg.Values) none,
          CEvent.xAck stream group msg.ID], client.XAck stream group msg.ID w)) ∧
    (∀ op, msg.Values.lookup "operation" = some (.str op) →
      op = "thing.disconnect" ∨ op = "channel.update" ∨ op = "channel.remove" →
      messageStep client msg w =
        (true, [CEvent.printf msg.Values, CEvent.xAck stream group msg.ID],
          client.XAck stream group msg.ID w)) := by
  constructor
  · intro h
    have h1 : isThingRemove msg = true := by
      unfold isThingRemove
      rw [h]
      decide
    unfold messageStep
    rw [messageStepWith_remove client handleRemoveThing msg w h1]
    rfl
  · intro op h hop
    have h1 : isThingRemove msg = false := by
      unfold isThingRemove
      rw [h]
      rcases hop with rfl | rfl | rfl <;> decide
    exact messageStepWith_other client handleRemoveThing msg w h1

/-! ## A failing handler -/

theorem ackedIds_append (a b : List CEvent) : ackedIds (a ++ b) = ackedIds a ++ ackedIds b := by
  induction a with
  | nil => rfl
  | cons ev a ih => cases ev <;> simp [ackedIds, ih]

theorem handlerCalls_append (a b : List CEvent) :
    handlerCalls (a ++ b) = handlerCalls a ++ handlerCalls b := by
  induction a with
  | nil => rfl
  | cons ev a ih => cases ev <;> simp [handlerCalls, ih]

theorem messagesLoopWith_cons_ok {W : Type} (client : Client W)
    (handle : removeEvent → W → Option Error × W) (msg : XMessage) (rest : List XMessage)
    (w w1 : W) (t : List CEvent) (h : messageStepWith client handle msg w = (true, t, w1)) :
    messagesLoopWith client handle (msg :: rest) w =
      (t ++ (messagesLoopWith client handle rest w1).1,
        (messagesLoopWith client handle rest w1).2) := by
  simp [messagesLoopWith, h]

theorem messagesLoopWith_cons_break {W : Type} (client : Client W)
    (handle : removeEvent → W → Option Error × W) (msg : XMessage) (rest : List XMessage)
    (w w1 : W) (t : List CEvent) (h : messageStepWith client handle msg w = (false, t, w1)) :
    messagesLoopWith client handle (msg :: rest) w = (t, w1) := by
  simp [messagesLoopWith, h]

theorem messagesLoop_acks_all {W : Type} (client : Client W) (batch : List XMessage) (w : W) :
    ackedIds (messagesLoop client batch w).1 = batch.map XMessage.ID := by
  unfold messagesLoop
  induction batch generalizing w with
  | nil => rfl
  | cons msg tl ih =>
    by_cases hrm : isThingRemove msg = true
    · have hstep := messageStepWith_remove client handleRemoveThing msg w hrm
      simp only [handleRemoveThing] at hstep
      rw [messagesLoopWith_cons_ok client handleRemoveThing msg tl w _ _ hstep]
      simp [ackedIds_append, ackedIds, ih]
    · have hrm2 : isThingRemove msg = false := by simpa using hrm
      rw [messagesLoopWith_cons_ok client handleRemoveThing msg tl w _ _
        (messageStepWith_other client handleRemoveThing msg w hrm2)]
      simp [ackedIds_append, ackedIds, ih]

/-- The shape of a batch, whatever the handler answers: the messages
acknowledged are those of a first part `pre` of the batch, one
acknowledgement each, in the order of the log, and the handlers called for
them all succeeded; either `pre` is the whole batch, or the message after
`pre` is one whose handler fails, and then the trace ends with the call of
that handler and the warning. -/
theorem messagesLoopWith_shape {W : Type} (client : Client W)
    (handle : removeEvent → W → Option Error × W) (batch : List XMessage) (w : W) :
    ∃ pre rest, batch = pre ++ rest ∧
      ackedIds (messagesLoopWith client handle batch w).1 = pre.map XMessage.ID ∧
      ackedIds (messagesLoopWith client handle pre w).1 = pre.map XMessage.ID ∧
      (∀ c ∈ handlerCalls (messagesLoopWith client handle pre w).1, c.2 = none) ∧
      ((rest = [] ∧
          messagesLoopWith client handle batch w = messagesLoopWith client handle pre w) ∨
        ∃ m post e w1, rest = m :: post ∧ isThingRemove m = true ∧
          handle (decodeRemoveThing m.Values) (messagesLoopWith client handle pre w).2 =
            (some e, w1) ∧
          messagesLoopWith client handle batch w =
            ((messagesLoopWith client handle pre w).1 ++
              [CEvent.printf m.Values,
                CEvent.handleRemoveThing (decodeRemoveThing m.Values) (some e),
                CEvent.warn ("Failed to handle event sourcing: " ++ e)], w1)) := by
  induction batch generalizing w with
  | nil =>
    exact ⟨[], [], rfl, rfl, rfl, by simp [messagesLoopWith, handlerCalls], Or.inl ⟨rfl, rfl⟩⟩
  | cons msg tl ih =>
    have hok : ∀ (t : List CEvent) (w1 : W),
        messageStepWith client handle msg w = (true, t, w1) →
        ackedIds t = [msg.ID] → (∀ c ∈ handlerCalls t, c.2 = none) →
        ∃ pre rest, msg :: tl = pre ++ rest ∧
          ackedIds (messagesLoopWith client handle (msg :: tl) w).1 = pre.map XMessage.ID ∧
          ackedIds (messagesLoopWith client handle pre w).1 = pre.map XMessage.ID ∧
          (∀ c ∈ handlerCalls (messagesLoopWith client handle pre w).1, c.2 = none) ∧
          ((rest = [] ∧ messagesLoopWith client handle (msg :: tl) w =
              messagesLoopWith client handle pre w) ∨
            ∃ m post e w2, rest = m :: post ∧ isThingRemove m = true ∧
              handle (decodeRemoveThing m.Values) (messagesLoopWith client handle pre w).2 =
                (some e, w2) ∧
              messagesLoopWith client handle (msg :: tl) w =
                ((messagesLoopWith client handle pre w).1 ++
                  [CEvent.printf m.Values,
                    CEvent.handleRemoveThing (decodeRemoveThing m.Values) (some e),
                    CEvent.warn ("Failed to handle event sourcing: " ++ e)], w2)) := by
      intro t w1 hstep hack hcalls
      obtain ⟨pre, rest, hsplit, h1, h2, h3, h4⟩ := ih w1
      have e1 := messagesLoopWith_cons_ok client handle msg tl w w1 t hstep
      have e2 := messagesLoopWith_cons_ok client handle msg pre w w1 t hstep
      refine ⟨msg :: pre, rest, by simp [hsplit], ?_, ?_, ?_, ?_⟩
      · rw [e1]; simp [ackedIds_append, hack, h1]
      · rw [e2]; simp [ackedIds_append, hack, h2]
      · rw [e2]
        intro c hc
        simp only [handlerCalls_append, List.mem_append] at hc
        rcases hc with hc | hc
        · exact hcalls c hc
        · exact h3 c hc
      · rcases h4 with ⟨hr, heq⟩ | ⟨m, post, e, w2, hr, hm, hh, heq⟩
        · left
          refine ⟨hr, ?_⟩
          rw [e1, e2, heq]
        · right
          refine ⟨m, post, e, w2, hr, hm, ?_, ?_⟩
          · rw [e2]; exact hh
          · rw [e1, e2, heq]; simp
    by_cases hrm : isThingRemove msg = true
    · have hstep := messageStepWith_remove client handle msg w hrm
      rcases hh : handle (decodeRemoveThing msg.Values) w with ⟨r, w1⟩
      rw [hh] at hstep
      cases r with
      | none =>
        exact hok _ _ hstep rfl (by simp [handlerCalls])
      | some e =>
        refine ⟨[], msg :: tl, rfl, ?_, rfl, by simp [messagesLoopWith, handlerCalls], ?_⟩
        · rw [messagesLoopWith_cons_break client handle msg tl w w1 _ hstep]
          rfl
        · right
          refine ⟨msg, tl, e, w1, rfl, hrm, hh, ?_⟩
          rw [messagesLoopWith_cons_break client handle msg tl w w1 _ hstep]
          rfl
    · have hrm2 : isThingRemove msg = false := by simpa using hrm
      exact hok _ _ (messageStepWith_other client handle msg w hrm2) rfl
        (by simp [handlerCalls])

end Consumer

namespace Config

open Go

/-! ## The header X-Scope-OrgID -/

/-- What the Prometheus builder does once the "exporter" sub-metadata holds a
string under "remote_host": it panics when the header is no string, and
returns the exporter otherwise, with the header when it is not empty. -/
theorem prometheus_builder_of_endpoint (config exporterMetadata : Metadata)
    (auth endpoint : String) (he : GetSubMetadata config "exporter" = some exporterMetadata)
    (hr : exporterMetadata.lookup "remote_host" = some (.str endpoint)) :
    PrometheusExporterConfig.GetExportersFromMetadata config auth =
      match assertString (scopeOrgHeader config) with
      | .error p => .error p
      | .ok h =>
        .ok ({ PrometheusRemoteWrite :=
                some { Endpoint := endpoint, Auth := { Authenticator := auth },
                       Headers := if h ≠ "" then some [("X-Scope-OrgID", h)] else none },
               OTLPExporter := none }, "prometheusremotewrite") := by
  unfold PrometheusExporterConfig.GetExportersFromMetadata
  simp only [he, hr]
  rcases ha : assertString (scopeOrgHeader config) with p | h
  · rfl
  · by_cases hh : h = "" <;> simp [hh]

/-- What the OTLP builder does once the "exporter" sub-metadata holds a
string under "endpoint". -/
theorem otlp_builder_of_endpoint (config exporterMetadata : Metadata)
    (auth endpoint : String) (he : GetSubMetadata config "exporter" = some exporterMetadata)
    (hr : exporterMetadata.lookup "endpoint" = some (.str endpoint)) :
    OTLPHTTPExporterBuilder.GetExportersFromMetadata config auth =
      match assertString (scopeOrgHeader config) with
      | .error p => .error p
      | .ok h =>
        .ok ({ PrometheusRemoteWrite := none,
               OTLPExporter :=
                some { Endpoint := endpoint, Auth := { Authenticator := auth },
                       Headers := if h ≠ "" then some [("X-Scope-OrgID", h)] else none } },
             "otlphttp") := by
  unfold OTLPHTTPExporterBuilder.GetExportersFromMetadata
  simp only [he, hr]
  rcases ha : assertString (scopeOrgHeader config) with p | h
  · rfl
  · by_cases hh : h = "" <;> simp [hh]

/-- C17: with a string endpoint in the "exporter" sub-metadata, both
builders panic on the type assertion of the header when the "headers"
sub-metadata is missing and when it holds nothing under "X-Scope-OrgID": no
exporter is returned.  With a string under "X-Scope-OrgID" they return the
exporter, with the header when the string is not empty and without headers
when it is empty. -/
theorem builders_panic_without_header :
    PrometheusExporterConfig.GetExportersFromMetadata
        [("exporter", .obj [("remote_host", .str "http://x")])] "basicauth/exporter" =
      .error "interface conversion: interface \x7b\x7d is nil, not string" ∧
    PrometheusExporterConfig.GetExportersFromMetadata
        [("exporter", .obj [("remote_host", .str "http://x")]), ("headers", .obj [])]
        "basicauth/exporter" =
      .error "interface conversion: interface \x7b\x7d is nil, not string" ∧
    OTLPHTTPExporterBuilder.GetExportersFromMetadata
        [("exporter", .obj [("endpoint", .str "http://x")])] "basicauth/exporter" =
      .error "interface conversion: interface \x7b\x7d is nil, not string" ∧
    OTLPHTTPExporterBuilder.GetExportersFromMetadata
        [("exporter", .obj [("endpoint", .str "http://x")]), ("headers", .obj [])]
        "basicauth/exporter" =
      .error "interface conversion: interface \x7b\x7d is nil, not string" ∧
    PrometheusExporterConfig.GetExportersFromMetadata
        [("exporter", .obj [("remote_host", .str "http://x")]),
          ("headers", .obj [("X-Scope-OrgID", .str "t1")])] "basicauth/exporter" =
      .ok ({ PrometheusRemoteWrite :=
              some { Endpoint := "http://x", Auth := { Authenticator := "basicauth/exporter" },
                     Headers := some [("X-Scope-OrgID", "t1")] },
             OTLPExporter := none }, "prometheusremotewrite") ∧
    OTLPHTTPExporterBuilder.GetExportersFromMetadata
        [("exporter", .obj [("endpoint", .str "http://x")]),
          ("headers", .obj [("X-Scope-OrgID", .str "")])] "basicauth/exporter" =
      .ok ({ PrometheusRemoteWrite := none,
             OTLPExporter :=
              some { Endpoint := "http://x", Auth := { Authenticator := "basicauth/exporter" },
                     Headers := none } }, "otlphttp") :=
  ⟨rfl, rfl, rfl, rfl, rfl, rfl⟩

end Config

namespace Consumer

open Go

/-! ## The read loop runs the batch loop -/

theorem readLoopWith_source {W : Type} (client : Client W) (esconsumer : String) (fuel : Nat)
    (w : W) :
    readLoopWith client handleRemoveThing esconsumer fuel w = readLoop client esconsumer fuel w := by
  induction fuel generalizing w with
  | zero => rfl
  | succ n ih => simp [readLoopWith, readLoop, messagesLoop, ih]

theorem SubscribeWith_source {W : Type} (client : Client W) (esconsumer subject : String)
    (fuel : Nat) (w : W) :
    SubscribeWith client handleRemoveThing esconsumer subject fuel w =
      Subscribe client esconsumer subject fuel w := by
  simp [SubscribeWith, Subscribe, readLoopWith_source]

/-- An iteration of the read loop whose read delivers a stream runs the batch
loop on the messages of that stream, then reads again. -/
theorem readLoopWith_batch {W : Type} (client : Client W)
    (handle : removeEvent → W → Option Error × W) (esconsumer : String) (fuel : Nat)
    (w w1 : W) (s : XStream) (tl : List XStream)
    (hread : client.XReadGroup (readArgs esconsumer) w = (.ok (s :: tl), w1)) :
    readLoopWith client handle esconsumer (fuel + 1) w =
      (CEvent.xReadGroup (readArgs esconsumer) none ::
          ((messagesLoopWith client handle s.Messages w1).1 ++
            (readLoopWith client handle esconsumer fuel
              (messagesLoopWith client handle s.Messages w1).2).1),
        (readLoopWith client handle esconsumer fuel
          (messagesLoopWith client handle s.Messages w1).2).2) := by
  simp [readLoopWith, hread]

theorem readLoop_batch {W : Type} (client : Client W) (esconsumer : String) (fuel : Nat)
    (w w1 : W) (s : XStream) (tl : List XStream)
    (hread : client.XReadGroup (readArgs esconsumer) w = (.ok (s :: tl), w1)) :
    readLoop client esconsumer (fuel + 1) w =
      (CEvent.xReadGroup (readArgs esconsumer) none ::
          ((messagesLoop client s.Messages w1).1 ++
            (readLoop client esconsumer fuel (messagesLoop client s.Messages w1).2).1),
        (readLoop client esconsumer fuel (messagesLoop client s.Messages w1).2).2) := by
  simp [readLoop, hread]

/-- Once the group is set up, `SubscribeWith` is the creation of the group
followed by the read loop. -/
theorem SubscribeWith_enters {W : Type} (client : Client W)
    (handle : removeEvent → W → Option Error × W) (esconsumer subject : String) (fuel : Nat)
    (w0 w : W) (r : Option Error)
    (hc : client.XGroupCreateMkStream stream group "$" w0 = (r, w))
    (hr : r = none ∨ r = some groupExists) :
    SubscribeWith client handle esconsumer subject fuel w0 =
      (none, CEvent.xGroupCreateMkStream stream group "$" r ::
          (readLoopWith client handle esconsumer fuel w).1,
        (readLoopWith client handle esconsumer fuel w).2) := by
  rcases hr with rfl | rfl <;> simp [SubscribeWith, hc]

theorem Subscribe_enters {W : Type} (client : Client W) (esconsumer subject : String)
    (fuel : Nat) (w0 w : W) (r : Option Error)
    (hc : client.XGroupCreateMkStream stream group "$" w0 = (r, w))
    (hr : r = none ∨ r = some groupExists) :
    Subscribe client esconsumer subject fuel w0 =
      (none, CEvent.xGroupCreateMkStream stream group "$" r ::
          (readLoop client esconsumer fuel w).1,
        (readLoop client esconsumer fuel w).2) := by
  rcases hr with rfl | rfl <;> simp [Subscribe, hc]

theorem messageStep_continues {W : Type} (client : Client W) (msg : XMessage) (w : W) :
    (messageStep client msg w).1 = true := by
  unfold messageStep
  by_cases hrm : isThingRemove msg = true
  · rw [messageStepWith_remove client handleRemoveThing msg w hrm]
    rfl
  · have hrm2 : isThingRemove msg = false := by simpa using hrm
    rw [messageStepWith_other client handleRemoveThing msg w hrm2]

theorem messagesLoop_cons {W : Type} (client : Client W) (msg : XMessage)
    (rest : List XMessage) (w : W) :
    messagesLoop client (msg :: rest) w =
      ((messageStep client msg w).2.1 ++
          (messagesLoop client rest (messageStep client msg w).2.2).1,
        (messagesLoop client rest (messageStep client msg w).2.2).2) := by
  have h := messageStep_continues client msg w
  unfold messagesLoop messageStep at *
  rcases hs : messageStepWith client handleRemoveThing msg w with ⟨b, t, w1⟩
  rw [hs] at h
  simp only at h
  subst h
  simp [messagesLoopWith, hs]

theorem messagesLoop_append {W : Type} (client : Client W) (pre post : List XMessage) (w : W) :
    messagesLoop client (pre ++ post) w =
      ((messagesLoop client pre w).1 ++ (messagesLoop client post (messagesLoop client pre w).2).1,
        (messagesLoop client post (messagesLoop client pre w).2).2) := by
  induction pre generalizing w with
  | nil => simp [messagesLoop, messagesLoopWith]
  | cons m pre ih =>
    rw [List.cons_append, messagesLoop_cons, messagesLoop_cons, ih]
    simp [List.append_assoc]

/-- An iteration of the read loop at a message of the batch it read: the
messages before it, the step of that message, the messages after it, then the
next read. -/
theorem readLoop_message {W : Type} (client : Client W) (esconsumer : String) (fuel : Nat)
    (w w1 : W) (s : XStream) (tl : List XStream) (pre rest : List XMessage) (msg : XMessage)
    (hread : client.XReadGroup (readArgs esconsumer) w = (.ok (s :: tl), w1))
    (hbatch : s.Messages = pre ++ msg :: rest) :
    readLoop client esconsumer (fuel + 1) w =
      (CEvent.xReadGroup (readArgs esconsumer) none ::
          ((messagesLoop client pre w1).1 ++
            ((messageStep client msg (messagesLoop client pre w1).2).2.1 ++
              ((messagesLoop client rest
                  (messageStep client msg (messagesLoop client pre w1).2).2.2).1 ++
                (readLoop client esconsumer fuel
                  (messagesLoop client rest
                    (messageStep client msg (messagesLoop client pre w1).2).2.2).2).1))),
        (readLoop client esconsumer fuel
          (messagesLoop client rest
            (messageStep client msg (messagesLoop client pre w1).2).2.2).2).2) := by
  rw [readLoop_batch client esconsumer fuel w w1 s tl hread, hbatch, messagesLoop_append,
    messagesLoop_cons]
  simp [List.append_assoc]

end Consumer

namespace Consumer

open Go

/-! ## The consumer loop on the batches it reads -/

/-- C12: when a read of the consumer loop delivers a batch, a message of the
batch whose "operation" field holds none of the operation values, or no
string, or is missing, gets no handler call and one acknowledgement, and the
loop goes on with the next message of the batch and then with the next read;
`Subscribe`, once the group is set up, is the creation of the group followed
by that loop.  The step is the same whatever handler the loop were given. -/
theorem unknown_operation_acknowledged {W : Type} (client : Client W)
    (esconsumer subject : String) (fuel : Nat) (w w1 : W) (s : XStream) (tl : List XStream)
    (pre rest : List XMessage) (msg : XMessage)
    (hread : client.XReadGroup (readArgs esconsumer) w = (.ok (s :: tl), w1))
    (hbatch : s.Messages = pre ++ msg :: rest)
    (h : recognized msg = false) :
    readLoop client esconsumer (fuel + 1) w =
      (CEvent.xReadGroup (readArgs esconsumer) none ::
          ((messagesLoop client pre w1).1 ++
            (CEvent.printf msg.Values :: CEvent.xAck stream group msg.ID ::
              ((messagesLoop client rest
                  (client.XAck stream group msg.ID (messagesLoop client pre w1).2)).1 ++
                (readLoop client esconsumer fuel
                  (messagesLoop client rest
                    (client.XAck stream group msg.ID (messagesLoop client pre w1).2)).2).1))),
        (readLoop client esconsumer fuel
          (messagesLoop client rest
            (client.XAck stream group msg.ID (messagesLoop client pre w1).2)).2).2) ∧
    (∀ w0 r, client.XGroupCreateMkStream stream group "$" w0 = (r, w) →
      r = none ∨ r = some groupExists →
      Subscribe client esconsumer subject (fuel + 1) w0 =
        (none, CEvent.xGroupCreateMkStream stream group "$" r ::
            (readLoop client esconsumer (fuel + 1) w).1,
          (readLoop client esconsumer (fuel + 1) w).2)) ∧
    (∀ (handle : removeEvent → W → Option Error × W) (w2 : W),
      messageStep client msg w2 =
        (true, [CEvent.printf msg.Values, CEvent.xAck stream group msg.ID],
          client.XAck stream group msg.ID w2) ∧
      handlerCalls (messageStepWith client handle msg w2).2.1 = [] ∧
      ackedIds (messageStepWith client handle msg w2).2.1 = [msg.ID] ∧
      messagesLoopWith client handle (msg :: rest) w2 =
        ([CEvent.printf msg.Values, CEvent.xAck stream group msg.ID] ++
            (messagesLoopWith client handle rest (client.XAck stream group msg.ID w2)).1,
          (messagesLoopWith client handle rest (client.XAck stream group msg.ID w2)).2)) := by
  have hstep : ∀ w2, messageStep client msg w2 =
      (true, [CEvent.printf msg.Values, CEvent.xAck stream group msg.ID],
        client.XAck stream group msg.ID w2) := fun w2 =>
    messageStepWith_other client handleRemoveThing msg w2
      (isThingRemove_of_not_recognized msg h)
  refine ⟨?_, ?_, ?_⟩
  · rw [readLoop_message client esconsumer fuel w w1 s tl pre rest msg hread hbatch, hstep]
    simp
  · intro w0 r hc hr
    exact Subscribe_enters client esconsumer subject (fuel + 1) w0 w r hc hr
  · intro handle w2
    have hs := unknown_operation_step client handle msg rest w2 h
    exact ⟨hs.1, hs.2.1, hs.2.2.1, hs.2.2.2.1⟩

/-- C12 at a batch of three messages, the second with the operation
"thing.create" and the third without an operation. -/
theorem unknown_operation_acknowledged_witness :
    (demoClient none).XReadGroup (readArgs "c")
        { pending := [[removeMsg "1-0" "s1", opMsg "2-0" "thing.create", bareMsg "3-0"]],
          acked := [] } =
      (.ok [{ Stream := stream,
              Messages := [removeMsg "1-0" "s1", opMsg "2-0" "thing.create", bareMsg "3-0"] }],
        { pending := [], acked := [] }) ∧
    recognized (opMsg "2-0" "thing.create") = false ∧
    ackedIds (Subscribe (demoClient none) "c" "orb.sinks" 2
      { pending := [[removeMsg "1-0" "s1", opMsg "2-0" "thing.create", bareMsg "3-0"]],
        acked := [] }).2.1 = ["1-0", "2-0", "3-0"] ∧
    handlerCalls (Subscribe (demoClient none) "c" "orb.sinks" 2
      { pending := [[removeMsg "1-0" "s1", opMsg "2-0" "thing.create", bareMsg "3-0"]],
        acked := [] }).2.1 = [(⟨"s1"⟩, none)] :=
  ⟨rfl, by decide,
    (congrArg (fun x => ackedIds x.2.1)
      ((unknown_operation_acknowledged (demoClient none) "c" "orb.sinks" 1
        { pending := [[removeMsg "1-0" "s1", opMsg "2-0" "thing.create", bareMsg "3-0"]],
          acked := [] }
        { pending := [], acked := [] }
        { Stream := stream,
          Messages := [removeMsg "1-0" "s1", opMsg "2-0" "thing.create", bareMsg "3-0"] }
        [] [removeMsg "1-0" "s1"] [bareMsg "3-0"] (opMsg "2-0" "thing.create") rfl rfl
        (by decide)).2.1 _ none rfl (Or.inl rfl))).trans (by decide),
    by decide⟩

end Consumer

namespace Consumer

open Go

/-- C13, amended: the switch of the consumer loop has the one case
"thing.remove".  When a read of the loop delivers a batch, a message of the
batch that carries "thing.remove" is decoded with `decodeRemoveThing`,
`handleRemoveThing` is called on it, and then it is acknowledged; a message
that carries "thing.disconnect", "channel.update" or "channel.remove" is
acknowledged with no decoding and no handler call.  In both cases the loop
goes on with the rest of the batch and the next read, and `Subscribe`, once
the group is set up, is the creation of the group followed by that loop. -/
theorem dispatch_only_thing_remove {W : Type} (client : Client W)
    (esconsumer subject : String) (fuel : Nat) (w w1 : W) (s : XStream) (tl : List XStream)
    (pre rest : List XMessage) (msg : XMessage)
    (hread : client.XReadGroup (readArgs esconsumer) w = (.ok (s :: tl), w1))
    (hbatch : s.Messages = pre ++ msg :: rest) :
    (msg.Values.lookup "operation" = some (.str "thing.remove") →
      readLoop client esconsumer (fuel + 1) w =
        (CEvent.xReadGroup (readArgs esconsumer) none ::
            ((messagesLoop client pre w1).1 ++
              (CEvent.printf msg.Values ::
                CEvent.handleRemoveThing (decodeRemoveThing msg.Values) none ::
                CEvent.xAck stream group msg.ID ::
                ((messagesLoop client rest
                    (client.XAck stream group msg.ID (messagesLoop client pre w1).2)).1 ++
                  (readLoop client esconsumer fuel
                    (messagesLoop client rest
                      (client.XAck stream group msg.ID (messagesLoop client pre w1).2)).2).1))),
          (readLoop client esconsumer fuel
            (messagesLoop client rest
              (client.XAck stream group msg.ID (messagesLoop client pre w1).2)).2).2)) ∧
    (∀ op, msg.Values.lookup "operation" = some (.str op) →
      op = "thing.disconnect" ∨ op = "channel.update" ∨ op = "channel.remove" →
      readLoop client esconsumer (fuel + 1) w =
        (CEvent.xReadGroup (readArgs esconsumer) none ::
            ((messagesLoop client pre w1).1 ++
              (CEvent.printf msg.Values :: CEvent.xAck stream group msg.ID ::
                ((messagesLoop client rest
                    (client.XAck stream group msg.ID (messagesLoop client pre w1).2)).1 ++
                  (readLoop client esconsumer fuel
                    (messagesLoop client rest
                      (client.XAck stream group msg.ID (messagesLoop client pre w1).2)).2).1))),
          (readLoop client esconsumer fuel
            (messagesLoop client rest
              (client.XAck stream group msg.ID (messagesLoop client pre w1).2)).2).2)) ∧
    (∀ w0 r, client.XGroupCreateMkStream stream group "$" w0 = (r, w) →
      r = none ∨ r = some groupExists →
      Subscribe client esconsumer subject (fuel + 1) w0 =
        (none, CEvent.xGroupCreateMkStream stream group "$" r ::
            (readLoop client esconsumer (fuel + 1) w).1,
          (readLoop client esconsumer (fuel + 1) w).2)) ∧
    (∀ w2 : W,
      (msg.Values.lookup "operation" = some (.str "thing.remove") →
        messageStep client msg w2 =
          (true, [CEvent.printf msg.Values,
            CEvent.handleRemoveThing (decodeRemoveThing msg.Values) none,
            CEvent.xAck stream group msg.ID], client.XAck stream group msg.ID w2)) ∧
      (∀ op, msg.Values.lookup "operation" = some (.str op) →
        op = "thing.disconnect" ∨ op = "channel.update" ∨ op = "channel.remove" →
        messageStep client msg w2 =
          (true, [CEvent.printf msg.Values, CEvent.xAck stream group msg.ID],
            client.XAck stream group msg.ID w2))) := by
  have hloop := readLoop_message client esconsumer fuel w w1 s tl pre rest msg hread hbatch
  refine ⟨?_, ?_, ?_, fun w2 => messageStep_dispatch client msg w2⟩
  · intro hop
    rw [hloop, (messageStep_dispatch client msg _).1 hop]
    simp
  · intro op hop hthree
    rw [hloop, (messageStep_dispatch client msg _).2 op hop hthree]
    simp
  · intro w0 r hc hr
    exact Subscribe_enters client esconsumer subject (fuel + 1) w0 w r hc hr

/-- C13, amended, at a batch of a "channel.update" message followed by a
"thing.remove" message. -/
theorem dispatch_only_thing_remove_witness :
    (demoClient none).XReadGroup (readArgs "c")
        { pending := [[opMsg "1-0" "channel.update", removeMsg "2-0" "s1"]], acked := [] } =
      (.ok [{ Stream := stream,
              Messages := [opMsg "1-0" "channel.update", removeMsg "2-0" "s1"] }],
        { pending := [], acked := [] }) ∧
    (removeMsg "2-0" "s1").Values.lookup "operation" = some (.str "thing.remove") ∧
    handlerCalls (readLoop (demoClient none) "c" 2
      { pending := [[opMsg "1-0" "channel.update", removeMsg "2-0" "s1"]],
        acked := [] }).1 = [(⟨"s1"⟩, none)] ∧
    ackedIds (readLoop (demoClient none) "c" 2
      { pending := [[opMsg "1-0" "channel.update", removeMsg "2-0" "s1"]],
        acked := [] }).1 = ["1-0", "2-0"] ∧
    (opMsg "1-0" "channel.update").Values.lookup "operation" = some (.str "channel.update") ∧
    handlerCalls (readLoop (demoClient none) "c" 1
      { pending := [[opMsg "1-0" "channel.update"]], acked := [] }).1 = [] :=
  ⟨rfl, rfl,
    (congrArg (fun x => handlerCalls x.1)
      ((dispatch_only_thing_remove (demoClient none) "c" "orb.sinks" 1
        { pending := [[opMsg "1-0" "channel.update", removeMsg "2-0" "s1"]], acked := [] }
        { pending := [], acked := [] }
        { Stream := stream, Messages := [opMsg "1-0" "channel.update", removeMsg "2-0" "s1"] }
        [] [opMsg "1-0" "channel.update"] [] (removeMsg "2-0" "s1") rfl rfl).1 rfl)).trans
      (by decide),
    by decide, rfl,
    (congrArg (fun x => handlerCalls x.1)
      ((dispatch_only_thing_remove (demoClient none) "c" "orb.sinks" 0
        { pending := [[opMsg "1-0" "channel.update"]], acked := [] }
        { pending := [], acked := [] }
        { Stream := stream, Messages := [opMsg "1-0" "channel.update"] }
        [] [] [] (opMsg "1-0" "channel.update") rfl rfl).2.1 "channel.update" rfl
          (Or.inr (Or.inl rfl)))).trans (by decide)⟩

/-- C11: when a read of the consumer loop delivers a batch, whatever the
handler answers, the messages acknowledged are those of a first part `pre` of
the batch, one acknowledgement each, in the order of the log, and the
handlers called for them all succeeded; either `pre` is the whole batch, or
the message after `pre` is one whose handler fails, and then the batch ends
with the call of that handler and the warning: that message and those after
it are not acknowledged, no handler is called for those after it, and the
loop goes to its next read.  `SubscribeWith`, once the group is set up, is
the creation of the group followed by that loop, and `Subscribe` is
`SubscribeWith` at the handler of the source, which never fails, so that it
acknowledges every message of the batch. -/
theorem handler_failure_halts_batch {W : Type} (client : Client W)
    (handle : removeEvent → W → Option Error × W) (esconsumer subject : String) (fuel : Nat)
    (w w1 : W) (s : XStream) (tl : List XStream)
    (hread : client.XReadGroup (readArgs esconsumer) w = (.ok (s :: tl), w1)) :
    readLoopWith client handle esconsumer (fuel + 1) w =
      (CEvent.xReadGroup (readArgs esconsumer) none ::
          ((messagesLoopWith client handle s.Messages w1).1 ++
            (readLoopWith client handle esconsumer fuel
              (messagesLoopWith client handle s.Messages w1).2).1),
        (readLoopWith client handle esconsumer fuel
          (messagesLoopWith client handle s.Messages w1).2).2) ∧
    (∃ pre rest, s.Messages = pre ++ rest ∧
      ackedIds (messagesLoopWith client handle s.Messages w1).1 = pre.map XMessage.ID ∧
      ackedIds (readLoopWith client handle esconsumer (fuel + 1) w).1 =
        pre.map XMessage.ID ++
          ackedIds (readLoopWith client handle esconsumer fuel
            (messagesLoopWith client handle s.Messages w1).2).1 ∧
      ackedIds (messagesLoopWith client handle pre w1).1 = pre.map XMessage.ID ∧
      (∀ c ∈ handlerCalls (messagesLoopWith client handle pre w1).1, c.2 = none) ∧
      ((rest = [] ∧
          messagesLoopWith client handle s.Messages w1 =
            messagesLoopWith client handle pre w1) ∨
        ∃ m post e w2, rest = m :: post ∧ isThingRemove m = true ∧
          handle (decodeRemoveThing m.Values) (messagesLoopWith client handle pre w1).2 =
            (some e, w2) ∧
          messagesLoopWith client handle s.Messages w1 =
            ((messagesLoopWith client handle pre w1).1 ++
              [CEvent.printf m.Values,
                CEvent.handleRemoveThing (decodeRemoveThing m.Values) (some e),
                CEvent.warn ("Failed to handle event sourcing: " ++ e)], w2))) ∧
    (∀ w0 r, client.XGroupCreateMkStream stream group "$" w0 = (r, w) →
      r = none ∨ r = some groupExists →
      SubscribeWith client handle esconsumer subject (fuel + 1) w0 =
        (none, CEvent.xGroupCreateMkStream stream group "$" r ::
            (readLoopWith client handle esconsumer (fuel + 1) w).1,
          (readLoopWith client handle esconsumer (fuel + 1) w).2)) ∧
    (∀ c sub n (w0 : W), SubscribeWith client handleRemoveThing c sub n w0 =
      Subscribe client c sub n w0) ∧
    readLoop client esconsumer (fuel + 1) w =
      (CEvent.xReadGroup (readArgs esconsumer) none ::
          ((messagesLoop client s.Messages w1).1 ++
            (readLoop client esconsumer fuel (messagesLoop client s.Messages w1).2).1),
        (readLoop client esconsumer fuel (messagesLoop client s.Messages w1).2).2) ∧
    ackedIds (messagesLoop client s.Messages w1).1 = s.Messages.map XMessage.ID ∧
    ackedIds (SubscribeWith (demoClient none) (failOn "s2") "c" "orb.sinks" 2
      { pending := [[removeMsg "1-0" "s1", opMsg "2-0" "channel.update",
          removeMsg "3-0" "s2", removeMsg "4-0" "s3"]], acked := [] }).2.1 = ["1-0", "2-0"] ∧
    handlerCalls (SubscribeWith (demoClient none) (failOn "s2") "c" "orb.sinks" 2
      { pending := [[removeMsg "1-0" "s1", opMsg "2-0" "channel.update",
          removeMsg "3-0" "s2", removeMsg "4-0" "s3"]], acked := [] }).2.1 =
      [(⟨"s1"⟩, none), (⟨"s2"⟩, some "remove failed")] ∧
    ackedIds (Subscribe (demoClient none) "c" "orb.sinks" 2
      { pending := [[removeMsg "1-0" "s1", opMsg "2-0" "channel.update",
          removeMsg "3-0" "s2", removeMsg "4-0" "s3"]], acked := [] }).2.1 =
      ["1-0", "2-0", "3-0", "4-0"] := by
  have hbatch := readLoopWith_batch client handle esconsumer fuel w w1 s tl hread
  refine ⟨hbatch, ?_, ?_, ?_, readLoop_batch client esconsumer fuel w w1 s tl hread,
    messagesLoop_acks_all client s.Messages w1, by decide, by decide, by decide⟩
  · obtain ⟨pre, rest, hsplit, h1, h2, h3, h4⟩ :=
      messagesLoopWith_shape client handle s.Messages w1
    refine ⟨pre, rest, hsplit, h1, ?_, h2, h3, h4⟩
    rw [hbatch]
    simp only [ackedIds, ackedIds_append, h1]
  · intro w0 r hc hr
    exact SubscribeWith_enters client handle esconsumer subject (fuel + 1) w0 w r hc hr
  · intro c sub n w0
    exact SubscribeWith_source client c sub n w0

/-- C11 at a batch of four messages and a handler that fails on the third. -/
theorem handler_failure_halts_batch_witness :
    (demoClient none).XReadGroup (readArgs "c")
        { pending := [[removeMsg "1-0" "s1", opMsg "2-0" "channel.update",
            removeMsg "3-0" "s2", removeMsg "4-0" "s3"]], acked := [] } =
      (.ok [{ Stream := stream,
              Messages := [removeMsg "1-0" "s1", opMsg "2-0" "channel.update",
                removeMsg "3-0" "s2", removeMsg "4-0" "s3"] }],
        { pending := [], acked := [] }) ∧
    ackedIds (readLoopWith (demoClient none) (failOn "s2") "c" 2
      { pending := [[removeMsg "1-0" "s1", opMsg "2-0" "channel.update",
          removeMsg "3-0" "s2", removeMsg "4-0" "s3"]], acked := [] }).1 = ["1-0", "2-0"] :=
  ⟨rfl,
    (congrArg (fun x => ackedIds x.1)
      (handler_failure_halts_batch (demoClient none) (failOn "s2") "c" "orb.sinks" 1
        { pending := [[removeMsg "1-0" "s1", opMsg "2-0" "channel.update",
            removeMsg "3-0" "s2", removeMsg "4-0" "s3"]], acked := [] }
        { pending := [], acked := [] }
        { Stream := stream,
          Messages := [removeMsg "1-0" "s1", opMsg "2-0" "channel.update",
            removeMsg "3-0" "s2", removeMsg "4-0" "s3"] }
        [] rfl).1).trans (by decide)⟩

end Consumer
